import Mathlib

/-!
# Order aggregate, event store and Elastic projection

A shallow embedding of

* `internal/order/aggregate/commands_handlers.go` (the six command handlers),
* `pkg/es/store/event_store.go` (`eventStore.SaveEvents`),
* `internal/order/projection/elastic_projection/event_handlers.go`
  (the seven projection handlers),

together with the collaborators those files call but do not define
(`pkg/es` events and aggregate base, `encoding/json`, the EventStoreDB client
and the Elastic repository).  Go methods that mutate their receiver and return
an `error` become functions returning the pair (error or none, receiver
afterwards), so that "the handler failed and changed nothing" is a statement
that can be false.
-/

namespace es

/-- A Go byte slice.  Only its contents matter to the code embedded here, so
the nil slice and the empty slice are both the empty list. -/
abbrev Bytes := List Nat

/-- The closed enumeration of event type names used by the order service. -/
inductive EventType where
  | OrderCreated
  | OrderPaid
  | OrderSubmitted
  | OrderUpdated
  | OrderCanceled
  | OrderDelivered
  | OrderDeliveryAddressChanged
  deriving DecidableEq, Repr

/-- Modelled from the spec: the event envelope of `pkg/es` (spec section 3):
aggregate id, aggregate type, event type, serialized payload, serialized
metadata, stream position and timestamp. -/
structure Event where
  AggregateID : String
  AggregateType : String
  EventType : es.EventType
  Data : Bytes
  Metadata : Bytes
  Version : Nat
  Timestamp : Nat
  deriving DecidableEq, Repr

/-- Errors returned by the aggregate, the projection and the store wrapper.
`Wrap cause msg` is `errors.Wrap(cause, msg)`. -/
inductive Err where
  | ErrAlreadyCreated
  | ErrOrderItemsIsRequired
  | ErrAlreadyCreatedOrCancelled
  | ErrAlreadyPaid
  | ErrAlreadySubmitted
  | ErrOrderNotPaid
  | Wrap (cause : String) (msg : String)
  | Store (cause : String)
  deriving DecidableEq, Repr

/-- The ambient values a handler reads through `ctx` and its tracing span:
the outcome of serializing the span's text-map carrier (what `SetMetadata`
stores) and the clock reading stamped on a new event. -/
structure Context where
  carrier : Except String Bytes
  now : Nat

/-- Modelled from the spec: `Event.SetMetadata` of `pkg/es` ("attaches
propagated cross-cutting metadata"): serializes the carrier and stores the
bytes on the event, or reports the serialization error and stores nothing. -/
def Event.SetMetadata (e : Event) (metaData : Except String Bytes) : Option String × Event :=
  match metaData with
  | .error err => (some err, e)
  | .ok metaDataBytes => (none, { e with Metadata := metaDataBytes })

/-- Modelled from the spec: `Event.GetJsonData` of `pkg/es` ("deserializes the
payload into the expected shape; fails if deserialization fails").  The
decoder for the target shape is `encoding/json`, taken as the argument
`unmarshal`; `encoding/json` rejects an empty input ("unexpected end of JSON
input") whatever the target is. -/
def Event.GetJsonData {α : Type} (e : Event) (unmarshal : Bytes → Except String α) : Except String α :=
  if e.Data.isEmpty then .error "unexpected end of JSON input" else unmarshal e.Data

end es

namespace events

open es

/-- Payload of `OrderCreated`. -/
structure OrderCreatedEventData (ι : Type) where
  ShopItems : Option (List ι)
  AccountEmail : String
  deriving DecidableEq, Repr

/-- Payload of `OrderUpdated`. -/
structure OrderUpdatedEventData (ι : Type) where
  ShopItems : Option (List ι)
  deriving DecidableEq, Repr

/-- Payload of `OrderCanceled`. -/
structure OrderCanceledEventData where
  CancelReason : String
  deriving DecidableEq, Repr

/-- Payload of `OrderDelivered`. -/
structure OrderDeliveredEventData where
  DeliveryTimestamp : Nat
  deriving DecidableEq, Repr

/-- Payload of the delivery address change event. -/
structure OrderChangeDeliveryAddress where
  DeliveryAddress : String
  deriving DecidableEq, Repr

/-- The `encoding/json` functions the handlers call, one pair per payload
shape.  `ι` is the shop item type and `P` the payment type (`models.ShopItem`
and `models.Payment`, both declared outside the embedded files). -/
structure Json (ι P : Type) where
  marshalCreated : OrderCreatedEventData ι → Except String Bytes
  marshalUpdated : OrderUpdatedEventData ι → Except String Bytes
  marshalCanceled : OrderCanceledEventData → Except String Bytes
  marshalDelivered : OrderDeliveredEventData → Except String Bytes
  unmarshalCreated : Bytes → Except String (OrderCreatedEventData ι)
  unmarshalUpdated : Bytes → Except String (OrderUpdatedEventData ι)
  unmarshalCanceled : Bytes → Except String OrderCanceledEventData
  unmarshalDelivered : Bytes → Except String OrderDeliveredEventData
  unmarshalAddress : Bytes → Except String OrderChangeDeliveryAddress
  unmarshalPayment : Bytes → Except String P

end events

namespace aggregate

open es events

/-- Modelled from the spec: the derived state of the order aggregate (spec
section 3): the five lifecycle flags, items, email, payment, delivery address,
cancel reason and delivery time.  A Go slice is `none` when nil. -/
structure Order (ι P : Type) where
  ShopItems : Option (List ι)
  AccountEmail : String
  DeliveryAddress : String
  CancelReason : String
  DeliveredTime : Nat
  Created : Bool
  Paid : Bool
  Submitted : Bool
  Canceled : Bool
  Delivered : Bool
  Payment : P
  deriving DecidableEq, Repr

/-- Modelled from the spec: the aggregate: identity, last known version, the
in-memory list of uncommitted events and the derived order state. -/
structure OrderAggregate (ι P : Type) where
  ID : String
  AggregateType : String
  Version : Nat
  UncommittedEvents : List Event
  Order : Order ι P
  deriving DecidableEq, Repr

/-- Modelled from the spec: the aggregate "constructed empty": every field of
the order holds its Go zero value and nothing is uncommitted. -/
def NewOrderAggregateWithID {ι P : Type} [Inhabited P] (id : String) : OrderAggregate ι P :=
  { ID := id
    AggregateType := "order"
    Version := 0
    UncommittedEvents := []
    Order :=
      { ShopItems := none, AccountEmail := "", DeliveryAddress := "", CancelReason := ""
        DeliveredTime := 0, Created := false, Paid := false, Submitted := false
        Canceled := false, Delivered := false, Payment := default } }

/-- Modelled from the spec: `es.NewBaseEvent` and the `events.New...Event`
constructors: an envelope for this aggregate with the given type and payload,
no metadata yet, and no position (the store assigns it). -/
def NewBaseEvent {ι P : Type} (ctx : Context) (a : OrderAggregate ι P) (eventType : EventType)
    (data : Bytes) : Event :=
  { AggregateID := a.ID
    AggregateType := a.AggregateType
    EventType := eventType
    Data := data
    Metadata := []
    Version := 0
    Timestamp := ctx.now }

/-- Modelled from the spec: `OrderAggregate.When`, the folding rules of spec
section 4.2: `OrderCreated` sets created and copies items and email,
`OrderPaid` sets paid, `OrderSubmitted` sets submitted, `OrderUpdated` replaces
the items, `OrderCanceled` sets canceled and stores the reason,
`OrderDelivered` sets delivered and stores the timestamp.  A payload that does
not deserialize is an error and folds nothing (section 7, "no partial Apply").
The spec gives no rule for the address change event: it folds to the same
state. -/
def When {ι P : Type} (j : Json ι P) (o : Order ι P) (evt : Event) : Except Err (Order ι P) :=
  match evt.EventType with
  | .OrderCreated =>
    match evt.GetJsonData j.unmarshalCreated with
    | .error err => .error (.Wrap err "GetJsonData")
    | .ok eventData =>
      .ok { o with Created := true, ShopItems := eventData.ShopItems
                   AccountEmail := eventData.AccountEmail }
  | .OrderPaid => .ok { o with Paid := true }
  | .OrderSubmitted => .ok { o with Submitted := true }
  | .OrderUpdated =>
    match evt.GetJsonData j.unmarshalUpdated with
    | .error err => .error (.Wrap err "GetJsonData")
    | .ok eventData => .ok { o with ShopItems := eventData.ShopItems }
  | .OrderCanceled =>
    match evt.GetJsonData j.unmarshalCanceled with
    | .error err => .error (.Wrap err "GetJsonData")
    | .ok eventData => .ok { o with Canceled := true, CancelReason := eventData.CancelReason }
  | .OrderDelivered =>
    match evt.GetJsonData j.unmarshalDelivered with
    | .error err => .error (.Wrap err "GetJsonData")
    | .ok eventData =>
      .ok { o with Delivered := true, DeliveredTime := eventData.DeliveryTimestamp }
  | .OrderDeliveryAddressChanged => .ok o

/-- Modelled from the spec: `AggregateBase.Apply` (spec section 4.2, step 3):
the event is folded into the current state by `When` and appended to the
uncommitted list; when the fold fails nothing is appended and nothing
changes. -/
def OrderAggregate.Apply {ι P : Type} (j : Json ι P) (a : OrderAggregate ι P) (evt : Event) :
    Option Err × OrderAggregate ι P :=
  match When j a.Order evt with
  | .error err => (some err, a)
  | .ok o => (none, { a with Order := o, UncommittedEvents := a.UncommittedEvents ++ [evt] })

/-- Modelled from the spec: replay (spec section 4.3, `load`): the events of a
stream folded in order by the same rules, stopping at the first event that
does not fold. -/
def Replay {ι P : Type} (j : Json ι P) (o : Order ι P) : List Event → Except Err (Order ι P)
  | [] => .ok o
  | evt :: rest =>
    match When j o evt with
    | .error err => .error err
    | .ok o1 => Replay j o1 rest

/-- The part every command shares. -/
structure BaseCommand where
  AggregateID : String
  deriving DecidableEq, Repr

/-- The create command embeds the base command and the created payload. -/
structure CreateOrderCommand (ι : Type) where
  BaseCommand : BaseCommand
  OrderCreatedEventData : OrderCreatedEventData ι
  deriving DecidableEq, Repr

/-- Promoted field of the embedded payload. -/
def CreateOrderCommand.ShopItems {ι : Type} (c : CreateOrderCommand ι) : Option (List ι) :=
  c.OrderCreatedEventData.ShopItems

/-- Promoted field of the embedded payload. -/
def CreateOrderCommand.AccountEmail {ι : Type} (c : CreateOrderCommand ι) : String :=
  c.OrderCreatedEventData.AccountEmail

structure OrderPaidCommand where
  BaseCommand : BaseCommand
  deriving DecidableEq, Repr

structure SubmitOrderCommand where
  BaseCommand : BaseCommand
  deriving DecidableEq, Repr

structure OrderUpdatedCommand (ι : Type) where
  BaseCommand : BaseCommand
  ShopItems : Option (List ι)
  deriving DecidableEq, Repr

structure OrderCanceledCommand where
  BaseCommand : BaseCommand
  CancelReason : String
  deriving DecidableEq, Repr

structure OrderDeliveredCommand where
  BaseCommand : BaseCommand
  DeliveryTimestamp : Nat
  deriving DecidableEq, Repr

/-- Embeds `OrderAggregate.onCreateOrderCommand`. -/
def onCreateOrderCommand {ι P : Type} (j : Json ι P) (ctx : Context) (a : OrderAggregate ι P)
    (command : CreateOrderCommand ι) : Option Err × OrderAggregate ι P :=
  if a.Order.Created then (some .ErrAlreadyCreated, a)
  else if command.OrderCreatedEventData.ShopItems.isNone then (some .ErrOrderItemsIsRequired, a)
  else
    let createdData : OrderCreatedEventData ι :=
      { ShopItems := command.ShopItems, AccountEmail := command.AccountEmail }
    match j.marshalCreated createdData with
    | .error err => (some (.Wrap err "json.Marshal"), a)
    | .ok createdDataBytes =>
      match (NewBaseEvent ctx a .OrderCreated createdDataBytes).SetMetadata ctx.carrier with
      | (some err, _) => (some (.Wrap err "SetMetadata"), a)
      | (none, createOrderEvent) => a.Apply j createOrderEvent

/-- Embeds `OrderAggregate.onOrderPaidCommand`.  The event is built with a nil
payload. -/
def onOrderPaidCommand {ι P : Type} (j : Json ι P) (ctx : Context) (a : OrderAggregate ι P)
    (_command : OrderPaidCommand) : Option Err × OrderAggregate ι P :=
  if !a.Order.Created || a.Order.Canceled then (some .ErrAlreadyCreatedOrCancelled, a)
  else if a.Order.Paid then (some .ErrAlreadyPaid, a)
  else if a.Order.Submitted then (some .ErrAlreadySubmitted, a)
  else
    match (NewBaseEvent ctx a .OrderPaid []).SetMetadata ctx.carrier with
    | (some err, _) => (some (.Wrap err "SetMetadata"), a)
    | (none, payOrderEvent) => a.Apply j payOrderEvent

/-- Embeds `OrderAggregate.onSubmitOrderCommand`. -/
def onSubmitOrderCommand {ι P : Type} (j : Json ι P) (ctx : Context) (a : OrderAggregate ι P)
    (_command : SubmitOrderCommand) : Option Err × OrderAggregate ι P :=
  if !a.Order.Created || a.Order.Canceled then (some .ErrAlreadyCreatedOrCancelled, a)
  else if !a.Order.Paid then (some .ErrOrderNotPaid, a)
  else if a.Order.Submitted then (some .ErrAlreadySubmitted, a)
  else
    match (NewBaseEvent ctx a .OrderSubmitted []).SetMetadata ctx.carrier with
    | (some err, _) => (some (.Wrap err "SetMetadata"), a)
    | (none, submitOrderEvent) => a.Apply j submitOrderEvent

/-- Embeds `OrderAggregate.onOrderUpdatedCommand`. -/
def onOrderUpdatedCommand {ι P : Type} (j : Json ι P) (ctx : Context) (a : OrderAggregate ι P)
    (command : OrderUpdatedCommand ι) : Option Err × OrderAggregate ι P :=
  if !a.Order.Created || a.Order.Canceled then (some .ErrAlreadyCreatedOrCancelled, a)
  else if a.Order.Submitted then (some .ErrAlreadySubmitted, a)
  else
    let eventData : OrderUpdatedEventData ι := { ShopItems := command.ShopItems }
    match j.marshalUpdated eventData with
    | .error err => (some (.Wrap err "json.Marshal"), a)
    | .ok eventDataBytes =>
      match (NewBaseEvent ctx a .OrderUpdated eventDataBytes).SetMetadata ctx.carrier with
      | (some err, _) => (some (.Wrap err "SetMetadata"), a)
      | (none, orderUpdatedEvent) => a.Apply j orderUpdatedEvent

/-- Embeds `OrderAggregate.onOrderCanceledCommand`: no state is checked. -/
def onOrderCanceledCommand {ι P : Type} (j : Json ι P) (ctx : Context) (a : OrderAggregate ι P)
    (command : OrderCanceledCommand) : Option Err × OrderAggregate ι P :=
  let eventData : OrderCanceledEventData := { CancelReason := command.CancelReason }
  match j.marshalCanceled eventData with
  | .error err => (some (.Wrap err "json.Marshal"), a)
  | .ok eventDataBytes =>
    match (NewBaseEvent ctx a .OrderCanceled eventDataBytes).SetMetadata ctx.carrier with
    | (some err, _) => (some (.Wrap err "SetMetadata"), a)
    | (none, event) => a.Apply j event

/-- Embeds `OrderAggregate.onOrderDeliveredCommand`: no state is checked. -/
def onOrderDeliveredCommand {ι P : Type} (j : Json ι P) (ctx : Context) (a : OrderAggregate ι P)
    (command : OrderDeliveredCommand) : Option Err × OrderAggregate ι P :=
  let eventData : OrderDeliveredEventData := { DeliveryTimestamp := command.DeliveryTimestamp }
  match j.marshalDelivered eventData with
  | .error err => (some (.Wrap err "json.Marshal"), a)
  | .ok eventDataBytes =>
    match (NewBaseEvent ctx a .OrderDelivered eventDataBytes).SetMetadata ctx.carrier with
    | (some err, _) => (some (.Wrap err "SetMetadata"), a)
    | (none, event) => a.Apply j event

/-- The six commands as one sum type. -/
inductive Command (ι : Type) where
  | Create (c : CreateOrderCommand ι)
  | Pay (c : OrderPaidCommand)
  | Submit (c : SubmitOrderCommand)
  | Update (c : OrderUpdatedCommand ι)
  | Cancel (c : OrderCanceledCommand)
  | Deliver (c : OrderDeliveredCommand)

/-- Modelled from the spec: `OrderAggregate.HandleCommand`: dispatch on the
kind of command to its handler. -/
def HandleCommand {ι P : Type} (j : Json ι P) (ctx : Context) (a : OrderAggregate ι P) :
    Command ι → Option Err × OrderAggregate ι P
  | .Create c => onCreateOrderCommand j ctx a c
  | .Pay c => onOrderPaidCommand j ctx a c
  | .Submit c => onSubmitOrderCommand j ctx a c
  | .Update c => onOrderUpdatedCommand j ctx a c
  | .Cancel c => onOrderCanceledCommand j ctx a c
  | .Deliver c => onOrderDeliveredCommand j ctx a c

/-- The aggregate after a sequence of commands, each with its own context.  A
command that fails hands on whatever state its handler left. -/
def RunCommands {ι P : Type} (j : Json ι P) (a : OrderAggregate ι P) :
    List (Context × Command ι) → OrderAggregate ι P
  | [] => a
  | (ctx, c) :: rest => RunCommands j (HandleCommand j ctx a c).2 rest

/-- The lifecycle invariant: a submitted order is paid and a paid order is
created. -/
def LifecycleInv {ι P : Type} (o : Order ι P) : Prop :=
  (o.Submitted = true → o.Paid = true) ∧ (o.Paid = true → o.Created = true)

end aggregate

namespace esdb

open es

/-- A proposed event as the EventStoreDB client takes it: type, payload and
metadata; the server assigns the position. -/
structure EventData where
  EventType : es.EventType
  Data : Bytes
  Metadata : Bytes
  deriving DecidableEq, Repr

/-- The expected state of a stream that a writer may ask the server to
check. -/
inductive ExpectedRevision where
  | Any
  | NoStream
  | StreamExists
  | Revision (n : Nat)
  deriving DecidableEq, Repr

/-- The options of an append.  The Go zero value `AppendToStreamOptions{}`
has no expected revision. -/
structure AppendToStreamOptions where
  ExpectedRevision : Option ExpectedRevision := none
  deriving DecidableEq, Repr

/-- Failures of an append. -/
inductive Error where
  | Unavailable
  | WrongExpectedVersion
  deriving DecidableEq, Repr

/-- The database behind the client: whether it can be reached, and the events
of every stream in position order (a stream never written to is empty). -/
structure Client where
  available : Bool
  streams : String → List EventData

/-- Whether a stream meets an expected revision.  Revisions count from zero,
so a stream of `n + 1` events is at revision `n`. -/
def ExpectedRevision.matches : ExpectedRevision → List EventData → Bool
  | .Any, _ => true
  | .NoStream, s => s.isEmpty
  | .StreamExists, s => !s.isEmpty
  | .Revision n, s => decide (s.length = n + 1)

/-- The client's `AppendToStream`: an unset expected revision defaults to
`Any`; a stream that does not meet the expected revision is left alone and the
call fails; otherwise the whole batch is appended after the current head. -/
def Client.AppendToStream (db : Client) (streamID : String) (opts : AppendToStreamOptions)
    (events : List EventData) : Except Error Nat × Client :=
  if !db.available then (.error .Unavailable, db)
  else
    let expected := opts.ExpectedRevision.getD .Any
    if !expected.matches (db.streams streamID) then (.error .WrongExpectedVersion, db)
    else
      let appended := db.streams streamID ++ events
      (.ok (appended.length - 1),
        { db with streams := fun s => if s = streamID then appended else db.streams s })

end esdb

namespace store

open es esdb

/-- Modelled from the spec: `Event.ToEventData` of `pkg/es`: the stored record
keeps the event's type, payload and metadata. -/
def ToEventData (event : Event) : EventData :=
  { EventType := event.EventType, Data := event.Data, Metadata := event.Metadata }

/-- Embeds `eventStore.SaveEvents`: converts the batch event by event and
appends it with the zero-valued options.  There is no expected-version
argument. -/
def SaveEvents (db : Client) (streamID : String) (events : List Event) : Option Error × Client :=
  let eventsData := events.foldl (fun acc event => acc ++ [ToEventData event]) []
  match db.AppendToStream streamID {} eventsData with
  | (.error err, db1) => (some err, db1)
  | (.ok _, db1) => (none, db1)

end store

namespace models

/-- The read-model document, with the fields the projection handlers set.
`ρ` is the price type. -/
structure OrderProjection (ι ρ P : Type) where
  OrderID : String
  ShopItems : Option (List ι)
  AccountEmail : String
  DeliveryAddress : String
  CancelReason : String
  TotalPrice : ρ
  DeliveredTime : Nat
  Created : Bool
  Paid : Bool
  Submitted : Bool
  Delivered : Bool
  Canceled : Bool
  Payment : P
  deriving DecidableEq, Repr

/-- The Go zero value of the document: what a struct literal leaves unset. -/
def OrderProjection.zero {ι ρ P : Type} [Inhabited ρ] [Inhabited P] : OrderProjection ι ρ P :=
  { OrderID := "", ShopItems := none, AccountEmail := "", DeliveryAddress := ""
    CancelReason := "", TotalPrice := default, DeliveredTime := 0, Created := false
    Paid := false, Submitted := false, Delivered := false, Canceled := false
    Payment := default }

/-- The names of the fields of the document. -/
inductive Field where
  | OrderID
  | ShopItems
  | AccountEmail
  | DeliveryAddress
  | CancelReason
  | TotalPrice
  | DeliveredTime
  | Created
  | Paid
  | Submitted
  | Delivered
  | Canceled
  | Payment
  deriving DecidableEq, Repr

/-- Two documents hold the same value in the named field. -/
def OrderProjection.sameAt {ι ρ P : Type} (f : Field) (d d1 : OrderProjection ι ρ P) : Prop :=
  match f with
  | .OrderID => d1.OrderID = d.OrderID
  | .ShopItems => d1.ShopItems = d.ShopItems
  | .AccountEmail => d1.AccountEmail = d.AccountEmail
  | .DeliveryAddress => d1.DeliveryAddress = d.DeliveryAddress
  | .CancelReason => d1.CancelReason = d.CancelReason
  | .TotalPrice => d1.TotalPrice = d.TotalPrice
  | .DeliveredTime => d1.DeliveredTime = d.DeliveredTime
  | .Created => d1.Created = d.Created
  | .Paid => d1.Paid = d.Paid
  | .Submitted => d1.Submitted = d.Submitted
  | .Delivered => d1.Delivered = d.Delivered
  | .Canceled => d1.Canceled = d.Canceled
  | .Payment => d1.Payment = d.Payment

/-- The named field of the document holds its zero value. -/
def OrderProjection.isZeroAt {ι ρ P : Type} [Inhabited ρ] [Inhabited P] (f : Field)
    (d : OrderProjection ι ρ P) : Prop :=
  match f with
  | .OrderID => d.OrderID = default
  | .ShopItems => d.ShopItems = default
  | .AccountEmail => d.AccountEmail = default
  | .DeliveryAddress => d.DeliveryAddress = default
  | .CancelReason => d.CancelReason = default
  | .TotalPrice => d.TotalPrice = default
  | .DeliveredTime => d.DeliveredTime = default
  | .Created => d.Created = default
  | .Paid => d.Paid = default
  | .Submitted => d.Submitted = default
  | .Delivered => d.Delivered = default
  | .Canceled => d.Canceled = default
  | .Payment => d.Payment = default

end models

namespace repository

open es models

/-- One field of the merge: a field of the partial document that holds its
zero value is nil and keeps the stored value. -/
def mergeField {α : Type} [DecidableEq α] [Inhabited α] (old new : α) : α :=
  if new = default then old else new

/-- Modelled from the spec: the merge of the read-model store boundary (spec
section 6, "merge non-nil fields"), field by field. -/
def merge {ι ρ P : Type} [DecidableEq ι] [DecidableEq ρ] [Inhabited ρ] [DecidableEq P]
    [Inhabited P] (old new : OrderProjection ι ρ P) : OrderProjection ι ρ P :=
  { OrderID := mergeField old.OrderID new.OrderID
    ShopItems := mergeField old.ShopItems new.ShopItems
    AccountEmail := mergeField old.AccountEmail new.AccountEmail
    DeliveryAddress := mergeField old.DeliveryAddress new.DeliveryAddress
    CancelReason := mergeField old.CancelReason new.CancelReason
    TotalPrice := mergeField old.TotalPrice new.TotalPrice
    DeliveredTime := mergeField old.DeliveredTime new.DeliveredTime
    Created := mergeField old.Created new.Created
    Paid := mergeField old.Paid new.Paid
    Submitted := mergeField old.Submitted new.Submitted
    Delivered := mergeField old.Delivered new.Delivered
    Canceled := mergeField old.Canceled new.Canceled
    Payment := mergeField old.Payment new.Payment }

/-- The read-model store: whether it can be reached, and its documents with
their keys. -/
structure ElasticRepository (ι ρ P : Type) where
  available : Bool
  docs : List (String × OrderProjection ι ρ P)

/-- The document stored under a key, if any. -/
def ElasticRepository.find {ι ρ P : Type} (r : ElasticRepository ι ρ P) (key : String) :
    Option (OrderProjection ι ρ P) :=
  (r.docs.find? (fun kv => kv.1 == key)).map (fun kv => kv.2)

/-- The number of documents stored under a key. -/
def ElasticRepository.count {ι ρ P : Type} (r : ElasticRepository ι ρ P) (key : String) : Nat :=
  r.docs.countP (fun kv => kv.1 == key)

/-- Modelled from the spec: `upsert(key, partialDocument)` of the read-model
store boundary (spec sections 4.4 and 6): create the document if absent, merge
the non-nil fields if present; an unreachable store reports an error and
changes nothing. -/
def ElasticRepository.upsert {ι ρ P : Type} [DecidableEq ι] [DecidableEq ρ] [Inhabited ρ]
    [DecidableEq P] [Inhabited P] (r : ElasticRepository ι ρ P) (key : String)
    (doc : OrderProjection ι ρ P) : Option Err × ElasticRepository ι ρ P :=
  if !r.available then (some (.Store "unavailable"), r)
  else if r.docs.any (fun kv => kv.1 == key) then
    (none, { r with docs := r.docs.map (fun kv => if kv.1 = key then (kv.1, merge kv.2 doc) else kv) })
  else (none, { r with docs := r.docs ++ [(key, doc)] })

/-- Modelled from the spec: `elasticRepository.IndexOrder`, the write issued by
`onOrderCreate`: the upsert of the document under its order id. -/
def ElasticRepository.IndexOrder {ι ρ P : Type} [DecidableEq ι] [DecidableEq ρ] [Inhabited ρ]
    [DecidableEq P] [Inhabited P] (r : ElasticRepository ι ρ P) (order : OrderProjection ι ρ P) :
    Option Err × ElasticRepository ι ρ P :=
  r.upsert order.OrderID order

/-- Modelled from the spec: `elasticRepository.UpdateOrder`, the write issued
by the other handlers: the upsert of the document under its order id. -/
def ElasticRepository.UpdateOrder {ι ρ P : Type} [DecidableEq ι] [DecidableEq ρ] [Inhabited ρ]
    [DecidableEq P] [Inhabited P] (r : ElasticRepository ι ρ P) (order : OrderProjection ι ρ P) :
    Option Err × ElasticRepository ι ρ P :=
  r.upsert order.OrderID order

end repository

namespace elastic_projection

open es events models repository

/-- The projection's collaborators other than the repository: the JSON
decoders, `aggregate.GetOrderAggregateID` (the order id derived from an
event's aggregate id) and `aggregate.GetShopItemsTotalPrice`. -/
structure elasticProjection (ι ρ P : Type) where
  json : Json ι P
  GetOrderAggregateID : String → String
  GetShopItemsTotalPrice : Option (List ι) → ρ

variable {ι ρ P : Type} [DecidableEq ι] [DecidableEq ρ] [Inhabited ρ] [DecidableEq P] [Inhabited P]

/-- Embeds `elasticProjection.onOrderCreate`. -/
def onOrderCreate (o : elasticProjection ι ρ P) (r : ElasticRepository ι ρ P) (evt : Event) :
    Option Err × ElasticRepository ι ρ P :=
  match evt.GetJsonData o.json.unmarshalCreated with
  | .error err => (some (.Wrap err "evt.GetJsonData"), r)
  | .ok eventData =>
    let op : OrderProjection ι ρ P :=
      { (OrderProjection.zero : OrderProjection ι ρ P) with
        OrderID := o.GetOrderAggregateID evt.AggregateID
        ShopItems := eventData.ShopItems
        Created := true
        AccountEmail := eventData.AccountEmail
        TotalPrice := o.GetShopItemsTotalPrice eventData.ShopItems }
    r.IndexOrder op

/-- Embeds `elasticProjection.onOrderPaid`. -/
def onOrderPaid (o : elasticProjection ι ρ P) (r : ElasticRepository ι ρ P) (evt : Event) :
    Option Err × ElasticRepository ι ρ P :=
  match evt.GetJsonData o.json.unmarshalPayment with
  | .error err => (some (.Wrap err "GetJsonData"), r)
  | .ok payment =>
    let op : OrderProjection ι ρ P :=
      { (OrderProjection.zero : OrderProjection ι ρ P) with
        OrderID := o.GetOrderAggregateID evt.AggregateID, Paid := true, Payment := payment }
    r.UpdateOrder op

/-- Embeds `elasticProjection.onSubmit`: the payload is not read. -/
def onSubmit (o : elasticProjection ι ρ P) (r : ElasticRepository ι ρ P) (evt : Event) :
    Option Err × ElasticRepository ι ρ P :=
  let op : OrderProjection ι ρ P :=
    { (OrderProjection.zero : OrderProjection ι ρ P) with
      OrderID := o.GetOrderAggregateID evt.AggregateID, Submitted := true }
  r.UpdateOrder op

/-- Embeds `elasticProjection.onUpdate`. -/
def onUpdate (o : elasticProjection ι ρ P) (r : ElasticRepository ι ρ P) (evt : Event) :
    Option Err × ElasticRepository ι ρ P :=
  match evt.GetJsonData o.json.unmarshalUpdated with
  | .error err => (some (.Wrap err "evt.GetJsonData"), r)
  | .ok eventData =>
    let op : OrderProjection ι ρ P :=
      { (OrderProjection.zero : OrderProjection ι ρ P) with
        OrderID := o.GetOrderAggregateID evt.AggregateID, ShopItems := eventData.ShopItems }
    let op := { op with TotalPrice := o.GetShopItemsTotalPrice eventData.ShopItems }
    r.UpdateOrder op

/-- Embeds `elasticProjection.onCancel`. -/
def onCancel (o : elasticProjection ι ρ P) (r : ElasticRepository ι ρ P) (evt : Event) :
    Option Err × ElasticRepository ι ρ P :=
  match evt.GetJsonData o.json.unmarshalCanceled with
  | .error err => (some (.Wrap err "evt.GetJsonData"), r)
  | .ok eventData =>
    let op : OrderProjection ι ρ P :=
      { (OrderProjection.zero : OrderProjection ι ρ P) with
        OrderID := o.GetOrderAggregateID evt.AggregateID
        Canceled := true
        Delivered := false
        CancelReason := eventData.CancelReason }
    r.UpdateOrder op

/-- Embeds `elasticProjection.onDelivered`. -/
def onDelivered (o : elasticProjection ι ρ P) (r : ElasticRepository ι ρ P) (evt : Event) :
    Option Err × ElasticRepository ι ρ P :=
  match evt.GetJsonData o.json.unmarshalDelivered with
  | .error err => (some (.Wrap err "evt.GetJsonData"), r)
  | .ok eventData =>
    let op : OrderProjection ι ρ P :=
      { (OrderProjection.zero : OrderProjection ι ρ P) with
        OrderID := o.GetOrderAggregateID evt.AggregateID
        Delivered := true
        DeliveredTime := eventData.DeliveryTimestamp }
    r.UpdateOrder op

/-- Embeds `elasticProjection.onOrderDeliveryAddressUpdated`. -/
def onOrderDeliveryAddressUpdated (o : elasticProjection ι ρ P) (r : ElasticRepository ι ρ P)
    (evt : Event) : Option Err × ElasticRepository ι ρ P :=
  match evt.GetJsonData o.json.unmarshalAddress with
  | .error err => (some (.Wrap err "evt.GetJsonData"), r)
  | .ok eventData =>
    let op : OrderProjection ι ρ P :=
      { (OrderProjection.zero : OrderProjection ι ρ P) with
        OrderID := o.GetOrderAggregateID evt.AggregateID
        DeliveryAddress := eventData.DeliveryAddress }
    r.UpdateOrder op

end elastic_projection

namespace sample

open es events

/-- A shop item list as bytes: a tag for nil or present, then the length and
the items. -/
def encodeItems : Option (List Nat) → Bytes
  | none => [0]
  | some xs => 1 :: xs.length :: xs

/-- Reads a shop item list back, returning it with the bytes that follow. -/
def decodeItems : Bytes → Except String (Option (List Nat) × Bytes)
  | 0 :: rest => .ok (none, rest)
  | 1 :: n :: rest =>
    if n ≤ rest.length then .ok (some (rest.take n), rest.drop n)
    else .error "unexpected end of input"
  | _ => .error "invalid character"

/-- A string as bytes, one code point each. -/
def encodeString (s : String) : Bytes := s.toList.map Char.toNat

/-- Reads a string back. -/
def decodeString (b : Bytes) : String := String.mk (b.map Char.ofNat)

/-- A small concrete codec over numeric shop items and payments, standing in
for `encoding/json` where the handlers are run on examples.  Every encoding is
non-empty. -/
def json : Json Nat Nat where
  marshalCreated d := .ok (encodeItems d.ShopItems ++ encodeString d.AccountEmail)
  marshalUpdated d := .ok (encodeItems d.ShopItems)
  marshalCanceled d := .ok (2 :: encodeString d.CancelReason)
  marshalDelivered d := .ok [3, d.DeliveryTimestamp]
  unmarshalCreated b :=
    match decodeItems b with
    | .error err => .error err
    | .ok (items, rest) => .ok { ShopItems := items, AccountEmail := decodeString rest }
  unmarshalUpdated b :=
    match decodeItems b with
    | .error err => .error err
    | .ok (items, _) => .ok { ShopItems := items }
  unmarshalCanceled
    | 2 :: rest => .ok { CancelReason := decodeString rest }
    | _ => .error "invalid character"
  unmarshalDelivered
    | [3, t] => .ok { DeliveryTimestamp := t }
    | _ => .error "invalid character"
  unmarshalAddress
    | 4 :: rest => .ok { DeliveryAddress := decodeString rest }
    | _ => .error "invalid character"
  unmarshalPayment
    | [5, p] => .ok p
    | _ => .error "invalid character"

/-- A context whose trace carrier serializes. -/
def ctx : Context := { carrier := .ok [123, 125], now := 1 }

/-- A context whose trace carrier fails to serialize. -/
def ctxBad : Context := { carrier := .error "unsupported value", now := 1 }

/-- Order "1" with the given created, paid, submitted and canceled flags and
every other field empty. -/
def orderInState (created paid submitted canceled : Bool) : aggregate.OrderAggregate Nat Nat :=
  { (aggregate.NewOrderAggregateWithID "1" : aggregate.OrderAggregate Nat Nat) with
    Order :=
      { (aggregate.NewOrderAggregateWithID "1" : aggregate.OrderAggregate Nat Nat).Order with
        Created := created, Paid := paid, Submitted := submitted, Canceled := canceled } }

/-- The projection over the example codec: the order id is the aggregate id
without the six characters of its aggregate type and dash, and the total
price is the sum of the items. -/
def projection : elastic_projection.elasticProjection Nat Nat Nat :=
  { json := json
    GetOrderAggregateID := fun s => String.mk (s.toList.drop 6)
    GetShopItemsTotalPrice := fun items => (items.getD []).sum }

/-- An `OrderCreated` event of order "1" with items 7 and 8 and an empty
email. -/
def createdEvent : Event :=
  { AggregateID := "order-1", AggregateType := "order", EventType := .OrderCreated
    Data := [1, 2, 7, 8], Metadata := [], Version := 1, Timestamp := 0 }

/-- An `OrderUpdated` event of order "1" that replaces the items by the single
item 9. -/
def updatedEvent : Event :=
  { AggregateID := "order-1", AggregateType := "order", EventType := .OrderUpdated
    Data := [1, 1, 9], Metadata := [], Version := 2, Timestamp := 0 }

/-- A read-model document of order "1" that is paid, submitted, canceled and
delivered. -/
def settledDoc : models.OrderProjection Nat Nat Nat :=
  { OrderID := "1", ShopItems := some [7], AccountEmail := "x@y.com", DeliveryAddress := "home"
    CancelReason := "late", TotalPrice := 7, DeliveredTime := 9, Created := true, Paid := true
    Submitted := true, Delivered := true, Canceled := true, Payment := 5 }

/-- A reachable read-model store holding that one document. -/
def settledStore : repository.ElasticRepository Nat Nat Nat :=
  { available := true, docs := [("1", settledDoc)] }

/-- A reachable read-model store holding no document. -/
def emptyStore : repository.ElasticRepository Nat Nat Nat :=
  { available := true, docs := [] }

/-- An event store whose stream "order-1" holds five events. -/
def db5 : esdb.Client :=
  { available := true
    streams := fun s =>
      if s = "order-1" then
        [⟨.OrderCreated, [1, 1, 7], []⟩, ⟨.OrderUpdated, [1, 1, 8], []⟩,
         ⟨.OrderUpdated, [1, 1, 9], []⟩, ⟨.OrderPaid, [], []⟩, ⟨.OrderSubmitted, [], []⟩]
      else [] }

/-- An event emitted by a writer that last saw the stream at version 3: it
carries version 4. -/
def staleEvent : Event :=
  { AggregateID := "order-1", AggregateType := "order", EventType := .OrderCanceled
    Data := [2, 108], Metadata := [], Version := 4, Timestamp := 0 }

end sample

/-! ## The aggregate -/

namespace aggregate

open es events

variable {ι P : Type}

/-- A failed `Apply` hands back the aggregate it was given. -/
theorem Apply_error_unchanged (j : Json ι P) (a : OrderAggregate ι P) (evt : Event) (err : Err)
    (h : (a.Apply j evt).1 = some err) : (a.Apply j evt).2 = a := by
  unfold OrderAggregate.Apply at h ⊢
  cases hw : When j a.Order evt with
  | error e => simp
  | ok o => simp [hw] at h

/-- The only error `Apply` returns is a wrapped deserialization error. -/
theorem Apply_error_is_wrap (j : Json ι P) (a : OrderAggregate ι P) (evt : Event) (err : Err)
    (h : (a.Apply j evt).1 = some err) : ∃ m, err = .Wrap m "GetJsonData" := by
  unfold OrderAggregate.Apply at h
  cases hw : When j a.Order evt with
  | ok o => simp [hw] at h
  | error e =>
    simp only [hw, Option.some.injEq] at h
    subst h
    unfold When at hw
    split at hw
    · split at hw
      · exact ⟨_, (Except.error.inj hw).symm⟩
      · cases hw
    · cases hw
    · cases hw
    · split at hw
      · exact ⟨_, (Except.error.inj hw).symm⟩
      · cases hw
    · split at hw
      · exact ⟨_, (Except.error.inj hw).symm⟩
      · cases hw
    · split at hw
      · exact ⟨_, (Except.error.inj hw).symm⟩
      · cases hw
    · cases hw

/-- The create handler either fails leaving the aggregate alone, or applies an
`OrderCreated` event. -/
theorem onCreateOrderCommand_cases (j : Json ι P) (ctx : Context) (a : OrderAggregate ι P)
    (c : CreateOrderCommand ι) :
    (∃ e, onCreateOrderCommand j ctx a c = (some e, a)) ∨
    (∃ evt, evt.EventType = .OrderCreated ∧
      onCreateOrderCommand j ctx a c = a.Apply j evt) := by
  simp only [onCreateOrderCommand]
  split_ifs with h1 h2
  · exact Or.inl ⟨_, rfl⟩
  · exact Or.inl ⟨_, rfl⟩
  · cases hm : j.marshalCreated { ShopItems := c.ShopItems, AccountEmail := c.AccountEmail } with
    | error e => exact Or.inl ⟨_, rfl⟩
    | ok b =>
      cases hc : ctx.carrier with
      | error e => exact Or.inl ⟨_, rfl⟩
      | ok md =>
        refine Or.inr ⟨_, ?_, rfl⟩
        simp [Event.SetMetadata, NewBaseEvent]

/-- The pay handler either fails leaving the aggregate alone, or applies an
`OrderPaid` event with an empty payload to a created, not canceled order. -/
theorem onOrderPaidCommand_cases (j : Json ι P) (ctx : Context) (a : OrderAggregate ι P)
    (c : OrderPaidCommand) :
    (∃ e, onOrderPaidCommand j ctx a c = (some e, a)) ∨
    (∃ evt, evt.EventType = .OrderPaid ∧ evt.Data = [] ∧ a.Order.Created = true ∧
      a.Order.Canceled = false ∧ onOrderPaidCommand j ctx a c = a.Apply j evt) := by
  simp only [onOrderPaidCommand]
  split_ifs with h1 h2 h3
  · exact Or.inl ⟨_, rfl⟩
  · exact Or.inl ⟨_, rfl⟩
  · exact Or.inl ⟨_, rfl⟩
  · cases hc : ctx.carrier with
    | error e => exact Or.inl ⟨_, rfl⟩
    | ok md =>
      refine Or.inr ⟨_, ?_, ?_, ?_, ?_, rfl⟩
      · simp [Event.SetMetadata, NewBaseEvent]
      · simp [Event.SetMetadata, NewBaseEvent]
      · cases hcr : a.Order.Created <;> simp [hcr] at h1 ⊢
      · cases hcn : a.Order.Canceled <;> simp [hcn] at h1 ⊢

/-- The submit handler either fails leaving the aggregate alone, or applies an
`OrderSubmitted` event to a created, not canceled, paid order. -/
theorem onSubmitOrderCommand_cases (j : Json ι P) (ctx : Context) (a : OrderAggregate ι P)
    (c : SubmitOrderCommand) :
    (∃ e, onSubmitOrderCommand j ctx a c = (some e, a)) ∨
    (∃ evt, evt.EventType = .OrderSubmitted ∧ a.Order.Created = true ∧
      a.Order.Canceled = false ∧ a.Order.Paid = true ∧
      onSubmitOrderCommand j ctx a c = a.Apply j evt) := by
  simp only [onSubmitOrderCommand]
  split_ifs with h1 h2 h3
  · exact Or.inl ⟨_, rfl⟩
  · exact Or.inl ⟨_, rfl⟩
  · exact Or.inl ⟨_, rfl⟩
  · cases hc : ctx.carrier with
    | error e => exact Or.inl ⟨_, rfl⟩
    | ok md =>
      refine Or.inr ⟨_, ?_, ?_, ?_, ?_, rfl⟩
      · simp [Event.SetMetadata, NewBaseEvent]
      · cases hcr : a.Order.Created <;> simp [hcr] at h1 ⊢
      · cases hcn : a.Order.Canceled <;> simp [hcn] at h1 ⊢
      · simpa using h2

/-- The update handler either fails leaving the aggregate alone, or applies an
`OrderUpdated` event. -/
theorem onOrderUpdatedCommand_cases (j : Json ι P) (ctx : Context) (a : OrderAggregate ι P)
    (c : OrderUpdatedCommand ι) :
    (∃ e, onOrderUpdatedCommand j ctx a c = (some e, a)) ∨
    (∃ evt, evt.EventType = .OrderUpdated ∧ onOrderUpdatedCommand j ctx a c = a.Apply j evt) := by
  simp only [onOrderUpdatedCommand]
  split_ifs with h1 h2
  · exact Or.inl ⟨_, rfl⟩
  · exact Or.inl ⟨_, rfl⟩
  · cases hm : j.marshalUpdated { ShopItems := c.ShopItems } with
    | error e => exact Or.inl ⟨_, rfl⟩
    | ok b =>
      cases hc : ctx.carrier with
      | error e => exact Or.inl ⟨_, rfl⟩
      | ok md =>
        refine Or.inr ⟨_, ?_, rfl⟩
        simp [Event.SetMetadata, NewBaseEvent]

/-- The cancel handler either fails leaving the aggregate alone, or applies an
`OrderCanceled` event. -/
theorem onOrderCanceledCommand_cases (j : Json ι P) (ctx : Context) (a : OrderAggregate ι P)
    (c : OrderCanceledCommand) :
    (∃ e, onOrderCanceledCommand j ctx a c = (some e, a)) ∨
    (∃ evt, evt.EventType = .OrderCanceled ∧ onOrderCanceledCommand j ctx a c = a.Apply j evt) := by
  simp only [onOrderCanceledCommand]
  cases hm : j.marshalCanceled { CancelReason := c.CancelReason } with
  | error e => exact Or.inl ⟨_, rfl⟩
  | ok b =>
    cases hc : ctx.carrier with
    | error e => exact Or.inl ⟨_, rfl⟩
    | ok md =>
      refine Or.inr ⟨_, ?_, rfl⟩
      simp [Event.SetMetadata, NewBaseEvent]

/-- The deliver handler either fails leaving the aggregate alone, or applies an
`OrderDelivered` event. -/
theorem onOrderDeliveredCommand_cases (j : Json ι P) (ctx : Context) (a : OrderAggregate ι P)
    (c : OrderDeliveredCommand) :
    (∃ e, onOrderDeliveredCommand j ctx a c = (some e, a)) ∨
    (∃ evt, evt.EventType = .OrderDelivered ∧
      onOrderDeliveredCommand j ctx a c = a.Apply j evt) := by
  simp only [onOrderDeliveredCommand]
  cases hm : j.marshalDelivered { DeliveryTimestamp := c.DeliveryTimestamp } with
  | error e => exact Or.inl ⟨_, rfl⟩
  | ok b =>
    cases hc : ctx.carrier with
    | error e => exact Or.inl ⟨_, rfl⟩
    | ok md =>
      refine Or.inr ⟨_, ?_, rfl⟩
      simp [Event.SetMetadata, NewBaseEvent]

/-- Folding an event that is neither `OrderPaid` nor `OrderSubmitted` keeps
the paid and submitted flags and never clears the created flag. -/
theorem When_other_flags (j : Json ι P) (o o1 : Order ι P) (evt : Event)
    (hp : evt.EventType ≠ .OrderPaid) (hs : evt.EventType ≠ .OrderSubmitted)
    (h : When j o evt = .ok o1) :
    o1.Paid = o.Paid ∧ o1.Submitted = o.Submitted ∧ (o.Created = true → o1.Created = true) := by
  unfold When at h
  split at h
  · split at h
    · cases h
    · cases h; simp
  · exact absurd (by assumption) hp
  · exact absurd (by assumption) hs
  · split at h
    · cases h
    · cases h; simp
  · split at h
    · cases h
    · cases h; simp
  · split at h
    · cases h
    · cases h; simp
  · cases h; simp

/-- Applying an event that is neither `OrderPaid` nor `OrderSubmitted` keeps
the lifecycle invariant. -/
theorem Apply_other_inv (j : Json ι P) (a : OrderAggregate ι P) (evt : Event)
    (hp : evt.EventType ≠ .OrderPaid) (hs : evt.EventType ≠ .OrderSubmitted)
    (h : LifecycleInv a.Order) : LifecycleInv (a.Apply j evt).2.Order := by
  unfold OrderAggregate.Apply
  cases hw : When j a.Order evt with
  | error e => exact h
  | ok o1 =>
    obtain ⟨e1, e2, e3⟩ := When_other_flags j a.Order o1 evt hp hs hw
    obtain ⟨h1, h2⟩ := h
    refine ⟨?_, ?_⟩
    · intro hsub
      show o1.Paid = true
      rw [e1]; apply h1; rw [← e2]; exact hsub
    · intro hpaid
      show o1.Created = true
      apply e3; apply h2; rw [← e1]; exact hpaid

/-- Every command handler keeps the lifecycle invariant. -/
theorem HandleCommand_inv (j : Json ι P) (ctx : Context) (a : OrderAggregate ι P)
    (c : Command ι) (h : LifecycleInv a.Order) :
    LifecycleInv (HandleCommand j ctx a c).2.Order := by
  cases c with
  | Create c =>
    rcases onCreateOrderCommand_cases j ctx a c with ⟨e, he⟩ | ⟨evt, ht, he⟩
    · simp only [HandleCommand, he]; exact h
    · simp only [HandleCommand, he]
      exact Apply_other_inv j a evt (by simp [ht]) (by simp [ht]) h
  | Pay c =>
    rcases onOrderPaidCommand_cases j ctx a c with ⟨e, he⟩ | ⟨evt, ht, _, hc, _, he⟩
    · simp only [HandleCommand, he]; exact h
    · simp only [HandleCommand, he, OrderAggregate.Apply, When, ht]
      exact ⟨fun _ => rfl, fun _ => hc⟩
  | Submit c =>
    rcases onSubmitOrderCommand_cases j ctx a c with ⟨e, he⟩ | ⟨evt, ht, hc, _, hp, he⟩
    · simp only [HandleCommand, he]; exact h
    · simp only [HandleCommand, he, OrderAggregate.Apply, When, ht]
      exact ⟨fun _ => hp, fun _ => hc⟩
  | Update c =>
    rcases onOrderUpdatedCommand_cases j ctx a c with ⟨e, he⟩ | ⟨evt, ht, he⟩
    · simp only [HandleCommand, he]; exact h
    · simp only [HandleCommand, he]
      exact Apply_other_inv j a evt (by simp [ht]) (by simp [ht]) h
  | Cancel c =>
    rcases onOrderCanceledCommand_cases j ctx a c with ⟨e, he⟩ | ⟨evt, ht, he⟩
    · simp only [HandleCommand, he]; exact h
    · simp only [HandleCommand, he]
      exact Apply_other_inv j a evt (by simp [ht]) (by simp [ht]) h
  | Deliver c =>
    rcases onOrderDeliveredCommand_cases j ctx a c with ⟨e, he⟩ | ⟨evt, ht, he⟩
    · simp only [HandleCommand, he]; exact h
    · simp only [HandleCommand, he]
      exact Apply_other_inv j a evt (by simp [ht]) (by simp [ht]) h

/-- Any run of commands keeps the lifecycle invariant. -/
theorem RunCommands_inv (j : Json ι P) (cmds : List (Context × Command ι)) :
    ∀ a : OrderAggregate ι P, LifecycleInv a.Order → LifecycleInv (RunCommands j a cmds).Order := by
  induction cmds with
  | nil => intro a h; exact h
  | cons x rest ih =>
    intro a h
    obtain ⟨ctx, c⟩ := x
    exact ih _ (HandleCommand_inv j ctx a c h)

end aggregate

namespace aggregate

open es events

/-- C1: `onOrderPaidCommand` returns `ErrAlreadyCreatedOrCancelled` when the
order is not created or is canceled; otherwise `ErrAlreadyPaid` when paid;
otherwise `ErrAlreadySubmitted` when submitted; otherwise, when the metadata
serializes, it succeeds, sets paid and appends exactly one `OrderPaid` event to
the uncommitted list.  On the empty aggregate it fails with
`ErrAlreadyCreatedOrCancelled`. -/
theorem onOrderPaidCommand_contract {ι P : Type} [Inhabited P] (j : Json ι P) (ctx : Context)
    (a : OrderAggregate ι P) (cmd : OrderPaidCommand) (id : String) :
    ((a.Order.Created = false ∨ a.Order.Canceled = true) →
        onOrderPaidCommand j ctx a cmd = (some .ErrAlreadyCreatedOrCancelled, a)) ∧
    (a.Order.Created = true → a.Order.Canceled = false → a.Order.Paid = true →
        onOrderPaidCommand j ctx a cmd = (some .ErrAlreadyPaid, a)) ∧
    (a.Order.Created = true → a.Order.Canceled = false → a.Order.Paid = false →
        a.Order.Submitted = true →
        onOrderPaidCommand j ctx a cmd = (some .ErrAlreadySubmitted, a)) ∧
    (a.Order.Created = true → a.Order.Canceled = false → a.Order.Paid = false →
        a.Order.Submitted = false → ∀ md, ctx.carrier = .ok md →
        ({ NewBaseEvent ctx a .OrderPaid [] with Metadata := md } : Event).EventType = .OrderPaid ∧
        onOrderPaidCommand j ctx a cmd =
          (none, { a with Order := { a.Order with Paid := true }
                          UncommittedEvents := a.UncommittedEvents ++
                            [{ NewBaseEvent ctx a .OrderPaid [] with Metadata := md }] })) ∧
    onOrderPaidCommand j ctx (NewOrderAggregateWithID id : OrderAggregate ι P) cmd =
      (some .ErrAlreadyCreatedOrCancelled, NewOrderAggregateWithID id) := by
  refine ⟨?_, ?_, ?_, ?_, ?_⟩
  · rintro (h | h) <;> simp [onOrderPaidCommand, h]
  · intro h1 h2 h3; simp [onOrderPaidCommand, h1, h2, h3]
  · intro h1 h2 h3 h4; simp [onOrderPaidCommand, h1, h2, h3, h4]
  · intro h1 h2 h3 h4 md hmd
    simp [onOrderPaidCommand, h1, h2, h3, h4, hmd, Event.SetMetadata, OrderAggregate.Apply, When,
      NewBaseEvent]
  · simp [onOrderPaidCommand, NewOrderAggregateWithID]

/-- The pay contract at four concrete aggregates: never created (rejected),
created and paid (rejected), created and submitted (rejected), created only
(one `OrderPaid` event emitted). -/
theorem onOrderPaidCommand_contract_witness :
    onOrderPaidCommand sample.json sample.ctx
        (sample.orderInState false false false false) ⟨⟨"1"⟩⟩ =
      (some .ErrAlreadyCreatedOrCancelled, sample.orderInState false false false false) ∧
    onOrderPaidCommand sample.json sample.ctx
        (sample.orderInState true true false false) ⟨⟨"1"⟩⟩ =
      (some .ErrAlreadyPaid, sample.orderInState true true false false) ∧
    onOrderPaidCommand sample.json sample.ctx
        (sample.orderInState true false true false) ⟨⟨"1"⟩⟩ =
      (some .ErrAlreadySubmitted, sample.orderInState true false true false) ∧
    (onOrderPaidCommand sample.json sample.ctx
        (sample.orderInState true false false false) ⟨⟨"1"⟩⟩).2.UncommittedEvents.map
          (fun e => e.EventType) = [.OrderPaid] :=
  ⟨(onOrderPaidCommand_contract sample.json sample.ctx _ ⟨⟨"1"⟩⟩ "1").1
      (Or.inl rfl),
   (onOrderPaidCommand_contract sample.json sample.ctx _ ⟨⟨"1"⟩⟩ "1").2.1
      rfl rfl rfl,
   (onOrderPaidCommand_contract sample.json sample.ctx _ ⟨⟨"1"⟩⟩ "1").2.2.1
      rfl rfl rfl rfl,
   by
    rw [((onOrderPaidCommand_contract sample.json sample.ctx _ ⟨⟨"1"⟩⟩ "1").2.2.2.1
      rfl rfl rfl rfl [123, 125] rfl).2]
    rfl⟩

/-- C2: `onSubmitOrderCommand` returns `ErrAlreadyCreatedOrCancelled` when the
order is not created or is canceled; otherwise `ErrOrderNotPaid` when not paid;
otherwise `ErrAlreadySubmitted` when submitted; otherwise, when the metadata
serializes, it succeeds, sets submitted and appends exactly one
`OrderSubmitted` event.  A created, unpaid order gets `ErrOrderNotPaid`. -/
theorem onSubmitOrderCommand_contract {ι P : Type} (j : Json ι P) (ctx : Context)
    (a : OrderAggregate ι P) (cmd : SubmitOrderCommand) :
    ((a.Order.Created = false ∨ a.Order.Canceled = true) →
        onSubmitOrderCommand j ctx a cmd = (some .ErrAlreadyCreatedOrCancelled, a)) ∧
    (a.Order.Created = true → a.Order.Canceled = false → a.Order.Paid = false →
        onSubmitOrderCommand j ctx a cmd = (some .ErrOrderNotPaid, a)) ∧
    (a.Order.Created = true → a.Order.Canceled = false → a.Order.Paid = true →
        a.Order.Submitted = true →
        onSubmitOrderCommand j ctx a cmd = (some .ErrAlreadySubmitted, a)) ∧
    (a.Order.Created = true → a.Order.Canceled = false → a.Order.Paid = true →
        a.Order.Submitted = false → ∀ md, ctx.carrier = .ok md →
        ({ NewBaseEvent ctx a .OrderSubmitted [] with Metadata := md } : Event).EventType
          = .OrderSubmitted ∧
        onSubmitOrderCommand j ctx a cmd =
          (none, { a with Order := { a.Order with Submitted := true }
                          UncommittedEvents := a.UncommittedEvents ++
                            [{ NewBaseEvent ctx a .OrderSubmitted [] with Metadata := md }] })) := by
  refine ⟨?_, ?_, ?_, ?_⟩
  · rintro (h | h) <;> simp [onSubmitOrderCommand, h]
  · intro h1 h2 h3; simp [onSubmitOrderCommand, h1, h2, h3]
  · intro h1 h2 h3 h4; simp [onSubmitOrderCommand, h1, h2, h3, h4]
  · intro h1 h2 h3 h4 md hmd
    simp [onSubmitOrderCommand, h1, h2, h3, h4, hmd, Event.SetMetadata, OrderAggregate.Apply,
      When, NewBaseEvent]

/-- The submit contract at four concrete aggregates: canceled (rejected), the
aggregate left by a successful create (`ErrOrderNotPaid`), already submitted
(rejected), created and paid (one `OrderSubmitted` event emitted). -/
theorem onSubmitOrderCommand_contract_witness :
    onSubmitOrderCommand sample.json sample.ctx
        (sample.orderInState true true false true) ⟨⟨"1"⟩⟩ =
      (some .ErrAlreadyCreatedOrCancelled, sample.orderInState true true false true) ∧
    onSubmitOrderCommand sample.json sample.ctx
        (onCreateOrderCommand sample.json sample.ctx
          (NewOrderAggregateWithID "1") ⟨⟨"1"⟩, ⟨some [7, 8], "x@y.com"⟩⟩).2 ⟨⟨"1"⟩⟩ =
      (some .ErrOrderNotPaid,
        (onCreateOrderCommand sample.json sample.ctx
          (NewOrderAggregateWithID "1") ⟨⟨"1"⟩, ⟨some [7, 8], "x@y.com"⟩⟩).2) ∧
    onSubmitOrderCommand sample.json sample.ctx
        (sample.orderInState true true true false) ⟨⟨"1"⟩⟩ =
      (some .ErrAlreadySubmitted, sample.orderInState true true true false) ∧
    (onSubmitOrderCommand sample.json sample.ctx
        (sample.orderInState true true false false) ⟨⟨"1"⟩⟩).2.UncommittedEvents.map
          (fun e => e.EventType) = [.OrderSubmitted] :=
  ⟨(onSubmitOrderCommand_contract sample.json sample.ctx _ ⟨⟨"1"⟩⟩).1
      (Or.inr rfl),
   (onSubmitOrderCommand_contract sample.json sample.ctx _ ⟨⟨"1"⟩⟩).2.1
      rfl rfl rfl,
   (onSubmitOrderCommand_contract sample.json sample.ctx _ ⟨⟨"1"⟩⟩).2.2.1
      rfl rfl rfl rfl,
   by
    rw [((onSubmitOrderCommand_contract sample.json sample.ctx _ ⟨⟨"1"⟩⟩).2.2.2
      rfl rfl rfl rfl [123, 125] rfl).2]
    rfl⟩

/-- C3 (the code departs from the claim): the guard of `onCreateOrderCommand`
tests the items for nil only.  An already created order is rejected with
`ErrAlreadyCreated` and a nil list with `ErrOrderItemsIsRequired`, but an
empty, non-nil list is never rejected with `ErrOrderItemsIsRequired`: on the
empty aggregate the command succeeds and emits an `OrderCreated` event for an
order without items. -/
theorem onCreateOrderCommand_empty_items_accepted :
    (∀ (ι P : Type) (j : Json ι P) (ctx : Context) (a : OrderAggregate ι P) (id email : String),
      (onCreateOrderCommand j ctx a ⟨⟨id⟩, ⟨some [], email⟩⟩).1 ≠ some .ErrOrderItemsIsRequired) ∧
    (∀ (ι P : Type) (j : Json ι P) (ctx : Context) (a : OrderAggregate ι P) (id email : String),
      onCreateOrderCommand j ctx a ⟨⟨id⟩, ⟨none, email⟩⟩ =
        (some (if a.Order.Created then .ErrAlreadyCreated else .ErrOrderItemsIsRequired), a)) ∧
    (onCreateOrderCommand sample.json sample.ctx
        (sample.orderInState false false false false)
        ⟨⟨"1"⟩, ⟨some [], "x@y.com"⟩⟩).1 = none ∧
    (onCreateOrderCommand sample.json sample.ctx
        (sample.orderInState false false false false)
        ⟨⟨"1"⟩, ⟨some [], "x@y.com"⟩⟩).2.Order.Created = true ∧
    (onCreateOrderCommand sample.json sample.ctx
        (sample.orderInState false false false false)
        ⟨⟨"1"⟩, ⟨some [], "x@y.com"⟩⟩).2.Order.ShopItems = some [] ∧
    (onCreateOrderCommand sample.json sample.ctx
        (sample.orderInState false false false false)
        ⟨⟨"1"⟩, ⟨some [], "x@y.com"⟩⟩).2.UncommittedEvents.map (fun e => e.EventType)
      = [.OrderCreated] := by
  refine ⟨?_, ?_, by decide, by decide, by decide, by decide⟩
  · intro ι P j ctx a id email
    simp only [onCreateOrderCommand]
    split_ifs with h1 h2
    · simp
    · simp at h2
    · simp only [CreateOrderCommand.ShopItems, CreateOrderCommand.AccountEmail]
      cases hm : j.marshalCreated { ShopItems := some [], AccountEmail := email } with
      | error e => simp
      | ok b =>
        cases hc : ctx.carrier with
        | error e => simp [Event.SetMetadata]
        | ok md =>
          simp only [Event.SetMetadata]
          intro h
          obtain ⟨m, hm⟩ := Apply_error_is_wrap j a _ _ h
          cases hm
  · intro ι P j ctx a id email
    simp only [onCreateOrderCommand]
    split_ifs <;> simp_all

end aggregate

namespace aggregate

open es events

/-- C4: `onOrderUpdatedCommand` returns `ErrAlreadyCreatedOrCancelled` when the
order is not created or is canceled; otherwise `ErrAlreadySubmitted` when
submitted; otherwise, paid or not, when the payload and the metadata serialize
and the payload folds, it succeeds and appends exactly one `OrderUpdated`
event whose payload is the serialized items of the command.  On a state
replayed from `[OrderCreated, OrderPaid, OrderSubmitted]` it fails with
`ErrAlreadySubmitted`. -/
theorem onOrderUpdatedCommand_contract {ι P : Type} [Inhabited P] (j : Json ι P) (ctx : Context)
    (a : OrderAggregate ι P) (cmd : OrderUpdatedCommand ι) :
    ((a.Order.Created = false ∨ a.Order.Canceled = true) →
        onOrderUpdatedCommand j ctx a cmd = (some .ErrAlreadyCreatedOrCancelled, a)) ∧
    (a.Order.Created = true → a.Order.Canceled = false → a.Order.Submitted = true →
        onOrderUpdatedCommand j ctx a cmd = (some .ErrAlreadySubmitted, a)) ∧
    (a.Order.Created = true → a.Order.Canceled = false → a.Order.Submitted = false →
        ∀ bytes md d, j.marshalUpdated { ShopItems := cmd.ShopItems } = .ok bytes →
        ctx.carrier = .ok md →
        ({ NewBaseEvent ctx a .OrderUpdated bytes with Metadata := md } : Event).GetJsonData
          j.unmarshalUpdated = .ok d →
        ({ NewBaseEvent ctx a .OrderUpdated bytes with Metadata := md } : Event).EventType
          = .OrderUpdated ∧
        ({ NewBaseEvent ctx a .OrderUpdated bytes with Metadata := md } : Event).Data = bytes ∧
        onOrderUpdatedCommand j ctx a cmd =
          (none, { a with Order := { a.Order with ShopItems := d.ShopItems }
                          UncommittedEvents := a.UncommittedEvents ++
                            [{ NewBaseEvent ctx a .OrderUpdated bytes with Metadata := md }] })) ∧
    (∀ (id : String) (e1 e2 e3 : Event) (o : Order ι P),
        e1.EventType = .OrderCreated → e2.EventType = .OrderPaid →
        e3.EventType = .OrderSubmitted →
        Replay j (NewOrderAggregateWithID id : OrderAggregate ι P).Order [e1, e2, e3] = .ok o →
        a.Order = o →
        onOrderUpdatedCommand j ctx a cmd = (some .ErrAlreadySubmitted, a)) := by
  refine ⟨?_, ?_, ?_, ?_⟩
  · rintro (h | h) <;> simp [onOrderUpdatedCommand, h]
  · intro h1 h2 h3; simp [onOrderUpdatedCommand, h1, h2, h3]
  · intro h1 h2 h3 bytes md d hb hmd hd
    refine ⟨rfl, rfl, ?_⟩
    simp only [NewBaseEvent] at hd
    simp [onOrderUpdatedCommand, h1, h2, h3, hb, hmd, Event.SetMetadata, OrderAggregate.Apply,
      When, NewBaseEvent, hd]
  · intro id e1 e2 e3 o t1 t2 t3 hr ha
    simp only [Replay, When, t1, t2, t3, NewOrderAggregateWithID] at hr
    split at hr
    · cases hr
    · rename_i o1 h1
      split at h1
      · cases h1
      · cases h1
        simp only [Except.ok.injEq] at hr
        subst hr
        simp [onOrderUpdatedCommand, ha]

/-- The update contract at concrete aggregates: not created (rejected),
submitted (rejected), created and paid (one `OrderUpdated` event carrying the
items), and the state replayed from a created, a paid and a submitted event
(rejected with `ErrAlreadySubmitted`). -/
theorem onOrderUpdatedCommand_contract_witness :
    onOrderUpdatedCommand sample.json sample.ctx
        (sample.orderInState false false false false) ⟨⟨"1"⟩, some [7, 8]⟩ =
      (some .ErrAlreadyCreatedOrCancelled, sample.orderInState false false false false) ∧
    onOrderUpdatedCommand sample.json sample.ctx
        (sample.orderInState true true true false) ⟨⟨"1"⟩, some [7, 8]⟩ =
      (some .ErrAlreadySubmitted, sample.orderInState true true true false) ∧
    ((onOrderUpdatedCommand sample.json sample.ctx
        (sample.orderInState true true false false) ⟨⟨"1"⟩, some [7, 8]⟩).2.Order.ShopItems
        = some [7, 8] ∧
      (onOrderUpdatedCommand sample.json sample.ctx
        (sample.orderInState true true false false)
        ⟨⟨"1"⟩, some [7, 8]⟩).2.UncommittedEvents.map (fun e => (e.EventType, e.Data))
        = [(.OrderUpdated, [1, 2, 7, 8])]) ∧
    onOrderUpdatedCommand sample.json sample.ctx
        { (sample.orderInState true true true false) with
          Order := { (sample.orderInState true true true false).Order with
                     ShopItems := some [7], AccountEmail := "x@y.com" } }
        ⟨⟨"1"⟩, some [7, 8]⟩ =
      (some .ErrAlreadySubmitted,
        { (sample.orderInState true true true false) with
          Order := { (sample.orderInState true true true false).Order with
                     ShopItems := some [7], AccountEmail := "x@y.com" } }) :=
  ⟨(onOrderUpdatedCommand_contract sample.json sample.ctx _ _).1 (Or.inl rfl),
   (onOrderUpdatedCommand_contract sample.json sample.ctx _ _).2.1 rfl rfl rfl,
   by
    rw [((onOrderUpdatedCommand_contract sample.json sample.ctx
      (sample.orderInState true true false false) ⟨⟨"1"⟩, some [7, 8]⟩).2.2.1
      rfl rfl rfl [1, 2, 7, 8] [123, 125] ⟨some [7, 8]⟩ rfl rfl rfl).2.2]
    exact ⟨rfl, rfl⟩,
   (onOrderUpdatedCommand_contract sample.json sample.ctx _ _).2.2.2 "1"
      ⟨"1", "order", .OrderCreated, [1, 1, 7, 120, 64, 121, 46, 99, 111, 109], [], 1, 0⟩
      ⟨"1", "order", .OrderPaid, [], [], 2, 0⟩
      ⟨"1", "order", .OrderSubmitted, [], [], 3, 0⟩ _ rfl rfl rfl rfl rfl⟩

/-- C5: whenever one of the six command handlers returns an error, the
aggregate it leaves is the aggregate it was given: nothing is appended to the
uncommitted list and no field of the order changes. -/
theorem command_error_leaves_aggregate {ι P : Type} (j : Json ι P) (ctx : Context)
    (a : OrderAggregate ι P) (err : Err) :
    (∀ c, (onCreateOrderCommand j ctx a c).1 = some err →
        (onCreateOrderCommand j ctx a c).2 = a) ∧
    (∀ c, (onOrderPaidCommand j ctx a c).1 = some err → (onOrderPaidCommand j ctx a c).2 = a) ∧
    (∀ c, (onSubmitOrderCommand j ctx a c).1 = some err →
        (onSubmitOrderCommand j ctx a c).2 = a) ∧
    (∀ c, (onOrderUpdatedCommand j ctx a c).1 = some err →
        (onOrderUpdatedCommand j ctx a c).2 = a) ∧
    (∀ c, (onOrderCanceledCommand j ctx a c).1 = some err →
        (onOrderCanceledCommand j ctx a c).2 = a) ∧
    (∀ c, (onOrderDeliveredCommand j ctx a c).1 = some err →
        (onOrderDeliveredCommand j ctx a c).2 = a) := by
  refine ⟨?_, ?_, ?_, ?_, ?_, ?_⟩
  · intro c h
    rcases onCreateOrderCommand_cases j ctx a c with ⟨e, he⟩ | ⟨evt, _, he⟩
    · rw [he]
    · rw [he] at h ⊢; exact Apply_error_unchanged j a evt err h
  · intro c h
    rcases onOrderPaidCommand_cases j ctx a c with ⟨e, he⟩ | ⟨evt, _, _, _, _, he⟩
    · rw [he]
    · rw [he] at h ⊢; exact Apply_error_unchanged j a evt err h
  · intro c h
    rcases onSubmitOrderCommand_cases j ctx a c with ⟨e, he⟩ | ⟨evt, _, _, _, _, he⟩
    · rw [he]
    · rw [he] at h ⊢; exact Apply_error_unchanged j a evt err h
  · intro c h
    rcases onOrderUpdatedCommand_cases j ctx a c with ⟨e, he⟩ | ⟨evt, _, he⟩
    · rw [he]
    · rw [he] at h ⊢; exact Apply_error_unchanged j a evt err h
  · intro c h
    rcases onOrderCanceledCommand_cases j ctx a c with ⟨e, he⟩ | ⟨evt, _, he⟩
    · rw [he]
    · rw [he] at h ⊢; exact Apply_error_unchanged j a evt err h
  · intro c h
    rcases onOrderDeliveredCommand_cases j ctx a c with ⟨e, he⟩ | ⟨evt, _, he⟩
    · rw [he]
    · rw [he] at h ⊢; exact Apply_error_unchanged j a evt err h

/-- Failing commands at concrete aggregates: a second create, a pay before
create, and a cancel whose metadata does not serialize each return their
error and the aggregate they were given. -/
theorem command_error_leaves_aggregate_witness :
    (onCreateOrderCommand sample.json sample.ctx
        (sample.orderInState true false false false) ⟨⟨"1"⟩, ⟨some [7], ""⟩⟩).2
      = sample.orderInState true false false false ∧
    (onOrderPaidCommand sample.json sample.ctx
        (sample.orderInState false false false false) ⟨⟨"1"⟩⟩).2
      = sample.orderInState false false false false ∧
    (onOrderCanceledCommand sample.json sample.ctxBad
        (sample.orderInState true false false false) ⟨⟨"1"⟩, "late"⟩).2
      = sample.orderInState true false false false :=
  ⟨(command_error_leaves_aggregate sample.json sample.ctx _
      .ErrAlreadyCreated).1 _ (by decide),
   (command_error_leaves_aggregate sample.json sample.ctx _
      .ErrAlreadyCreatedOrCancelled).2.1 _ (by decide),
   (command_error_leaves_aggregate sample.json sample.ctxBad _
      (.Wrap "unsupported value" "SetMetadata")).2.2.2.2.1 _ (by decide)⟩

/-- C9: in every aggregate reached from the empty aggregate by any sequence of
commands, submitted implies paid and paid implies created; and whenever the
submit handler succeeds the order was paid, whenever the pay handler succeeds
the order was created and not canceled. -/
theorem reachable_lifecycle_invariant {ι P : Type} [Inhabited P] (j : Json ι P) (id : String)
    (cmds : List (Context × Command ι)) :
    (((RunCommands j (NewOrderAggregateWithID id : OrderAggregate ι P) cmds).Order.Submitted = true →
        (RunCommands j (NewOrderAggregateWithID id : OrderAggregate ι P) cmds).Order.Paid = true) ∧
      ((RunCommands j (NewOrderAggregateWithID id : OrderAggregate ι P) cmds).Order.Paid = true →
        (RunCommands j (NewOrderAggregateWithID id : OrderAggregate ι P) cmds).Order.Created
          = true)) ∧
    (∀ (ctx : Context) (a : OrderAggregate ι P) (c : SubmitOrderCommand),
        (onSubmitOrderCommand j ctx a c).1 = none → a.Order.Paid = true) ∧
    (∀ (ctx : Context) (a : OrderAggregate ι P) (c : OrderPaidCommand),
        (onOrderPaidCommand j ctx a c).1 = none →
        a.Order.Created = true ∧ a.Order.Canceled = false) := by
  refine ⟨?_, ?_, ?_⟩
  · exact RunCommands_inv j cmds _ ⟨by simp [NewOrderAggregateWithID],
      by simp [NewOrderAggregateWithID]⟩
  · intro ctx a c h
    rcases onSubmitOrderCommand_cases j ctx a c with ⟨e, he⟩ | ⟨evt, _, _, _, hp, _⟩
    · rw [he] at h; cases h
    · exact hp
  · intro ctx a c h
    rcases onOrderPaidCommand_cases j ctx a c with ⟨e, he⟩ | ⟨evt, _, _, hc, hn, _⟩
    · rw [he] at h; cases h
    · exact ⟨hc, hn⟩

/-- The invariant on a concrete run: submit (rejected), create, submit
(rejected, unpaid), pay, cancel, submit (rejected, canceled) ends created and
paid but not submitted. -/
theorem reachable_lifecycle_invariant_witness :
    (RunCommands sample.json (NewOrderAggregateWithID "1" : OrderAggregate Nat Nat)
        [(sample.ctx, .Submit ⟨⟨"1"⟩⟩),
         (sample.ctx, .Create ⟨⟨"1"⟩, ⟨some [7], "x@y.com"⟩⟩),
         (sample.ctx, .Submit ⟨⟨"1"⟩⟩),
         (sample.ctx, .Pay ⟨⟨"1"⟩⟩),
         (sample.ctx, .Cancel ⟨⟨"1"⟩, "late"⟩),
         (sample.ctx, .Submit ⟨⟨"1"⟩⟩)]).Order.Paid = true ∧
    (RunCommands sample.json (NewOrderAggregateWithID "1" : OrderAggregate Nat Nat)
        [(sample.ctx, .Submit ⟨⟨"1"⟩⟩),
         (sample.ctx, .Create ⟨⟨"1"⟩, ⟨some [7], "x@y.com"⟩⟩),
         (sample.ctx, .Submit ⟨⟨"1"⟩⟩),
         (sample.ctx, .Pay ⟨⟨"1"⟩⟩),
         (sample.ctx, .Cancel ⟨⟨"1"⟩, "late"⟩),
         (sample.ctx, .Submit ⟨⟨"1"⟩⟩)]).Order.Created = true :=
  ⟨by decide,
   (reachable_lifecycle_invariant sample.json "1"
      [(sample.ctx, .Submit ⟨⟨"1"⟩⟩),
       (sample.ctx, .Create ⟨⟨"1"⟩, ⟨some [7], "x@y.com"⟩⟩),
       (sample.ctx, .Submit ⟨⟨"1"⟩⟩),
       (sample.ctx, .Pay ⟨⟨"1"⟩⟩),
       (sample.ctx, .Cancel ⟨⟨"1"⟩, "late"⟩),
       (sample.ctx, .Submit ⟨⟨"1"⟩⟩)]).1.2 (by decide)⟩

end aggregate

/-! ## The read-model store -/

namespace repository

open es models

variable {ι ρ P : Type}

theorem find_none_iff (r : ElasticRepository ι ρ P) (k : String) :
    r.find k = none ↔ r.docs.any (fun kv => kv.1 == k) = false := by
  unfold ElasticRepository.find
  rw [Option.map_eq_none', List.find?_eq_none]
  constructor
  · intro h
    cases hany : r.docs.any (fun kv => kv.1 == k) with
    | false => rfl
    | true =>
      obtain ⟨x, hx, hxk⟩ := List.any_eq_true.mp hany
      exact absurd hxk (h x hx)
  · intro h x hx hxk
    have : r.docs.any (fun kv => kv.1 == k) = true := List.any_eq_true.mpr ⟨x, hx, hxk⟩
    rw [h] at this
    cases this

theorem count_zero_of_absent (r : ElasticRepository ι ρ P) (k : String)
    (h : r.docs.any (fun kv => kv.1 == k) = false) : r.count k = 0 := by
  unfold ElasticRepository.count
  rw [List.countP_eq_zero]
  intro x hx hxk
  have : r.docs.any (fun kv => kv.1 == k) = true := List.any_eq_true.mpr ⟨x, hx, hxk⟩
  rw [h] at this
  cases this

variable [DecidableEq ι] [DecidableEq ρ] [Inhabited ρ] [DecidableEq P] [Inhabited P]

theorem mergeField_idem {α : Type} [DecidableEq α] [Inhabited α] (old new : α) :
    mergeField (mergeField old new) new = mergeField old new := by
  unfold mergeField
  split_ifs <;> rfl

theorem mergeField_self {α : Type} [DecidableEq α] [Inhabited α] (x : α) :
    mergeField x x = x := by
  unfold mergeField
  split_ifs <;> rfl

theorem mergeField_zero {α : Type} [DecidableEq α] [Inhabited α] (old : α) :
    mergeField old default = old := by
  simp [mergeField]

/-- Merging the same partial document twice is merging it once. -/
theorem merge_idem (d p : OrderProjection ι ρ P) : merge (merge d p) p = merge d p := by
  simp [merge, mergeField_idem]

/-- Merging a document into itself changes nothing. -/
theorem merge_self (p : OrderProjection ι ρ P) : merge p p = p := by
  simp [merge, mergeField_self]

theorem any_map_key (docs : List (String × OrderProjection ι ρ P)) (key : String)
    (p : OrderProjection ι ρ P) :
    (docs.map (fun kv => if kv.1 = key then (kv.1, merge kv.2 p) else kv)).any
        (fun kv => kv.1 == key) = docs.any (fun kv => kv.1 == key) := by
  induction docs with
  | nil => rfl
  | cons x rest ih =>
    rw [List.map_cons, List.any_cons, List.any_cons, ih]
    by_cases h : x.1 = key <;> simp [h]

theorem map_absent (docs : List (String × OrderProjection ι ρ P)) (key : String)
    (p : OrderProjection ι ρ P) (h : docs.any (fun kv => kv.1 == key) = false) :
    docs.map (fun kv => if kv.1 = key then (kv.1, merge kv.2 p) else kv) = docs := by
  induction docs with
  | nil => rfl
  | cons x rest ih =>
    rw [List.any_cons, Bool.or_eq_false_iff] at h
    have hx : ¬ x.1 = key := by simpa using h.1
    rw [List.map_cons, ih h.2, if_neg hx]

theorem map_map_merge (docs : List (String × OrderProjection ι ρ P)) (key : String)
    (p : OrderProjection ι ρ P) :
    (docs.map (fun kv => if kv.1 = key then (kv.1, merge kv.2 p) else kv)).map
        (fun kv => if kv.1 = key then (kv.1, merge kv.2 p) else kv) =
      docs.map (fun kv => if kv.1 = key then (kv.1, merge kv.2 p) else kv) := by
  induction docs with
  | nil => rfl
  | cons x rest ih =>
    rw [List.map_cons, List.map_cons, ih]
    by_cases h : x.1 = key <;> simp [h, merge_idem]

/-- The upsert is idempotent: writing the same partial document under the same
key a second time leaves the store as the first write left it. -/
theorem upsert_idem (r : ElasticRepository ι ρ P) (key : String) (p : OrderProjection ι ρ P) :
    ((r.upsert key p).2.upsert key p) = (r.upsert key p) := by
  unfold ElasticRepository.upsert
  by_cases ha : r.available = true
  · by_cases hk : r.docs.any (fun kv => kv.1 == key) = true
    · simp only [ha, hk, Bool.not_true, Bool.false_eq_true, if_false, if_true, any_map_key,
        map_map_merge]
    · simp only [Bool.not_eq_true] at hk
      simp only [ha, hk, Bool.not_true, Bool.false_eq_true, if_false, List.any_append,
        List.any_cons, beq_self_eq_true, Bool.true_or, Bool.or_true, if_true, List.map_append,
        map_absent _ _ _ hk, List.map_cons, List.map_nil, merge_self]
  · simp [ha]

theorem find_map_key (docs : List (String × OrderProjection ι ρ P)) (key k : String)
    (p : OrderProjection ι ρ P) :
    ((docs.map (fun kv => if kv.1 = key then (kv.1, merge kv.2 p) else kv)).find?
        (fun kv => kv.1 == k)).map (fun kv => kv.2) =
      (docs.find? (fun kv => kv.1 == k)).map
        (fun kv => if kv.1 = key then merge kv.2 p else kv.2) := by
  induction docs with
  | nil => rfl
  | cons x rest ih =>
    have hfst : (if x.1 = key then (x.1, merge x.2 p) else x).1 = x.1 := by
      split_ifs <;> rfl
    have hsnd : (if x.1 = key then (x.1, merge x.2 p) else x).2 =
        if x.1 = key then merge x.2 p else x.2 := by
      split_ifs <;> rfl
    rw [List.map_cons, List.find?_cons, List.find?_cons, hfst]
    cases hk : (x.1 == k)
    · exact ih
    · exact congrArg some hsnd

/-- What a key that holds a document holds after an upsert: the merged
document if the key is the one written, the stored document otherwise. -/
theorem find_upsert (r : ElasticRepository ι ρ P) (key k : String)
    (p d : OrderProjection ι ρ P) (h : r.find k = some d) :
    (r.upsert key p).2.find k = some (if r.available = true ∧ k = key then merge d p else d) := by
  unfold ElasticRepository.find at h ⊢
  unfold ElasticRepository.upsert
  obtain ⟨kv, hkv, hd⟩ := Option.map_eq_some'.mp h
  have hkey : kv.1 = k := by simpa using List.find?_some hkv
  by_cases ha : r.available = true
  · by_cases hk : r.docs.any (fun kv => kv.1 == key) = true
    · simp only [ha, hk, Bool.not_true, Bool.false_eq_true, if_false, if_true, find_map_key, hkv,
        Option.map_some', true_and, hkey, hd]
    · have e : k ≠ key := by
        intro e
        apply hk
        exact List.any_eq_true.mpr ⟨kv, List.mem_of_find?_eq_some hkv, by simp [hkey, e]⟩
      simp [ha, hk, e, List.find?_append, hkv, hd]
  · simp [ha, hkv, hd]

theorem countP_map_key (docs : List (String × OrderProjection ι ρ P)) (key k : String)
    (p : OrderProjection ι ρ P) :
    (docs.map (fun kv => if kv.1 = key then (kv.1, merge kv.2 p) else kv)).countP
        (fun kv => kv.1 == k) = docs.countP (fun kv => kv.1 == k) := by
  induction docs with
  | nil => rfl
  | cons x rest ih =>
    have hfst : (if x.1 = key then (x.1, merge x.2 p) else x).1 = x.1 := by
      split_ifs <;> rfl
    rw [List.map_cons, List.countP_cons, List.countP_cons, ih, hfst]

/-- An upsert under a key that holds no document creates exactly one, equal to
the partial document. -/
theorem upsert_absent (r : ElasticRepository ι ρ P) (key : String) (p : OrderProjection ι ρ P)
    (ha : r.available = true) (h : r.find key = none) :
    (r.upsert key p).1 = none ∧ (r.upsert key p).2.find key = some p ∧
      (r.upsert key p).2.count key = 1 := by
  have hany := (find_none_iff r key).mp h
  have hc := count_zero_of_absent r key hany
  unfold ElasticRepository.find at h
  unfold ElasticRepository.count at hc
  unfold ElasticRepository.upsert ElasticRepository.find ElasticRepository.count
  simp only [ha, hany, Bool.not_true, Bool.false_eq_true, if_false, true_and]
  refine ⟨?_, ?_⟩
  · rw [List.find?_append, Option.map_eq_none'.mp h]
    simp
  · rw [List.countP_append, hc]
    simp

/-- An upsert under a key that holds a document succeeds when the store can be
reached and never adds a document. -/
theorem upsert_present (r : ElasticRepository ι ρ P) (key : String)
    (p d : OrderProjection ι ρ P) (ha : r.available = true) (h : r.find key = some d) :
    (r.upsert key p).1 = none ∧ (r.upsert key p).2.find key = some (merge d p) ∧
      (r.upsert key p).2.count key = r.count key := by
  have hf := find_upsert r key key p d h
  simp only [ha, true_and, if_true] at hf
  refine ⟨?_, hf, ?_⟩
  · unfold ElasticRepository.upsert
    simp only [ha, Bool.not_true, Bool.false_eq_true, if_false]
    split_ifs <;> rfl
  · have hany : r.docs.any (fun kv => kv.1 == key) = true := by
      cases hany : r.docs.any (fun kv => kv.1 == key) with
      | true => rfl
      | false => rw [(find_none_iff r key).mpr hany] at h; cases h
    unfold ElasticRepository.upsert ElasticRepository.count
    simp only [ha, hany, Bool.not_true, Bool.false_eq_true, if_false, if_true, countP_map_key]

end repository

/-! ## The projection -/

namespace elastic_projection

open es events models repository

/-- A store that is handed back untouched keeps every document. -/
theorem frame_unchanged {ι ρ P : Type} [Inhabited ρ] [Inhabited P] (r : ElasticRepository ι ρ P) (k : String) (d : OrderProjection ι ρ P)
    (W : List Field) (h : r.find k = some d) :
    ∃ d1, r.find k = some d1 ∧ (∀ f, f ∉ W → d.sameAt f d1) ∧
      (∀ f, ¬ d.isZeroAt f → ¬ d1.isZeroAt f) :=
  ⟨d, h, fun f _ => by cases f <;> rfl, fun _ hf => hf⟩

variable {ι ρ P : Type} [DecidableEq ι] [DecidableEq ρ] [Inhabited ρ] [DecidableEq P] [Inhabited P]

/-- A merge never turns a field that holds a value into one that holds
none. -/
theorem merge_keeps_set_fields (d p : OrderProjection ι ρ P) (f : Field)
    (h : ¬ d.isZeroAt f) : ¬ (merge d p).isZeroAt f := by
  cases f <;> simp only [OrderProjection.isZeroAt, merge, mergeField] at h ⊢ <;>
    split_ifs <;> assumption

/-- A merge keeps every field in which the partial document holds no value. -/
theorem merge_sameAt (d p : OrderProjection ι ρ P) (f : Field) (hz : p.isZeroAt f) :
    d.sameAt f (merge d p) := by
  cases f <;> simp only [OrderProjection.isZeroAt] at hz <;>
    simp only [OrderProjection.sameAt, merge, hz] <;> exact mergeField_zero _

/-- After an upsert every document is still there, agrees with what it was on
every field in which the partial document holds no value, and has lost no
value. -/
theorem frame_upsert (r : ElasticRepository ι ρ P) (key k : String)
    (op d : OrderProjection ι ρ P) (W : List Field) (h : r.find k = some d)
    (hW : ∀ f, f ∉ W → op.isZeroAt f) :
    ∃ d1, (r.upsert key op).2.find k = some d1 ∧ (∀ f, f ∉ W → d.sameAt f d1) ∧
      (∀ f, ¬ d.isZeroAt f → ¬ d1.isZeroAt f) := by
  refine ⟨_, find_upsert r key k op d h, ?_, ?_⟩
  · intro f hf
    split_ifs
    · exact merge_sameAt d op f (hW f hf)
    · cases f <;> rfl
  · intro f hf
    split_ifs
    · exact merge_keeps_set_fields d op f hf
    · exact hf

/-- C7 (as amended): with `IndexOrder` and `UpdateOrder` taken as the merging
upsert of the read-model store, every projection handler leaves every stored
document in place, changes in it only the fields that its own partial document
sets (listed per handler below), and erases no field that holds a value.
Items and total price are set by both `onOrderCreate` and `onUpdate` and are
not among the preserved fields of either.  In particular `onOrderCreate` keeps
paid, submitted, canceled, delivered, payment, cancel reason, delivered time
and delivery address as it found them. -/
theorem projection_handlers_merge (o : elasticProjection ι ρ P) (r : ElasticRepository ι ρ P)
    (evt : Event) (k : String) (d : OrderProjection ι ρ P) (h : r.find k = some d) :
    (∃ d1, (onOrderCreate o r evt).2.find k = some d1 ∧
      (∀ f, f ∉ [Field.OrderID, .ShopItems, .Created, .AccountEmail, .TotalPrice] →
        d.sameAt f d1) ∧
      (∀ f, ¬ d.isZeroAt f → ¬ d1.isZeroAt f)) ∧
    (∃ d1, (onOrderPaid o r evt).2.find k = some d1 ∧
      (∀ f, f ∉ [Field.OrderID, .Paid, .Payment] → d.sameAt f d1) ∧
      (∀ f, ¬ d.isZeroAt f → ¬ d1.isZeroAt f)) ∧
    (∃ d1, (onSubmit o r evt).2.find k = some d1 ∧
      (∀ f, f ∉ [Field.OrderID, .Submitted] → d.sameAt f d1) ∧
      (∀ f, ¬ d.isZeroAt f → ¬ d1.isZeroAt f)) ∧
    (∃ d1, (onUpdate o r evt).2.find k = some d1 ∧
      (∀ f, f ∉ [Field.OrderID, .ShopItems, .TotalPrice] → d.sameAt f d1) ∧
      (∀ f, ¬ d.isZeroAt f → ¬ d1.isZeroAt f)) ∧
    (∃ d1, (onCancel o r evt).2.find k = some d1 ∧
      (∀ f, f ∉ [Field.OrderID, .Canceled, .CancelReason] → d.sameAt f d1) ∧
      (∀ f, ¬ d.isZeroAt f → ¬ d1.isZeroAt f)) ∧
    (∃ d1, (onDelivered o r evt).2.find k = some d1 ∧
      (∀ f, f ∉ [Field.OrderID, .Delivered, .DeliveredTime] → d.sameAt f d1) ∧
      (∀ f, ¬ d.isZeroAt f → ¬ d1.isZeroAt f)) ∧
    (∃ d1, (onOrderDeliveryAddressUpdated o r evt).2.find k = some d1 ∧
      (∀ f, f ∉ [Field.OrderID, .DeliveryAddress] → d.sameAt f d1) ∧
      (∀ f, ¬ d.isZeroAt f → ¬ d1.isZeroAt f)) := by
  refine ⟨?_, ?_, ?_, ?_, ?_, ?_, ?_⟩
  · unfold onOrderCreate
    cases hd : evt.GetJsonData o.json.unmarshalCreated with
    | error e => exact frame_unchanged r k d _ h
    | ok eventData =>
      exact frame_upsert r _ k _ d _ h (fun f hf => by cases f <;> simp at hf <;> rfl)
  · unfold onOrderPaid
    cases hd : evt.GetJsonData o.json.unmarshalPayment with
    | error e => exact frame_unchanged r k d _ h
    | ok payment =>
      exact frame_upsert r _ k _ d _ h (fun f hf => by cases f <;> simp at hf <;> rfl)
  · unfold onSubmit
    exact frame_upsert r _ k _ d _ h (fun f hf => by cases f <;> simp at hf <;> rfl)
  · unfold onUpdate
    cases hd : evt.GetJsonData o.json.unmarshalUpdated with
    | error e => exact frame_unchanged r k d _ h
    | ok eventData =>
      exact frame_upsert r _ k _ d _ h (fun f hf => by cases f <;> simp at hf <;> rfl)
  · unfold onCancel
    cases hd : evt.GetJsonData o.json.unmarshalCanceled with
    | error e => exact frame_unchanged r k d _ h
    | ok eventData =>
      exact frame_upsert r _ k _ d _ h (fun f hf => by cases f <;> simp at hf <;> rfl)
  · unfold onDelivered
    cases hd : evt.GetJsonData o.json.unmarshalDelivered with
    | error e => exact frame_unchanged r k d _ h
    | ok eventData =>
      exact frame_upsert r _ k _ d _ h (fun f hf => by cases f <;> simp at hf <;> rfl)
  · unfold onOrderDeliveryAddressUpdated
    cases hd : evt.GetJsonData o.json.unmarshalAddress with
    | error e => exact frame_unchanged r k d _ h
    | ok eventData =>
      exact frame_upsert r _ k _ d _ h (fun f hf => by cases f <;> simp at hf <;> rfl)

/-- The write of `onOrderCreate` at concrete inputs: a redelivered
`OrderCreated` processed against a document that is already paid, submitted,
canceled and delivered leaves all of that in place. -/
theorem projection_handlers_merge_witness :
    ∃ d1, (onOrderCreate sample.projection sample.settledStore
        sample.createdEvent).2.find "1" = some d1 ∧
      (∀ f, f ∉ [Field.OrderID, .ShopItems, .Created, .AccountEmail, .TotalPrice] →
        sample.settledDoc.sameAt f d1) ∧
      (∀ f, ¬ sample.settledDoc.isZeroAt f → ¬ d1.isZeroAt f) :=
  (projection_handlers_merge sample.projection sample.settledStore
    sample.createdEvent "1" sample.settledDoc (by decide)).1

/-- C7 fails as stated: a field set by the handler of one event type is not
always kept by the handler of another.  `OrderCreated` with items 7 and 8,
then `OrderUpdated` with the item 9, then the same `OrderCreated` delivered
again: after the update the document of order "1" holds the item 9 and the
total 9; after the redelivered create it holds the items 7, 8 and the total 15
again, so the items and total price set by `onUpdate` are gone. -/
theorem projection_shared_fields_overwritten :
    ((onUpdate sample.projection
        (onOrderCreate sample.projection sample.emptyStore sample.createdEvent).2
        sample.updatedEvent).2.find "1").map (fun d => (d.ShopItems, d.TotalPrice))
      = some (some [9], 9) ∧
    ((onOrderCreate sample.projection
        (onUpdate sample.projection
          (onOrderCreate sample.projection sample.emptyStore sample.createdEvent).2
          sample.updatedEvent).2
        sample.createdEvent).2.find "1").map (fun d => (d.ShopItems, d.TotalPrice))
      = some (some [7, 8], 15) ∧
    ¬ (∀ d d1,
        (onUpdate sample.projection
          (onOrderCreate sample.projection sample.emptyStore sample.createdEvent).2
          sample.updatedEvent).2.find "1" = some d →
        (onOrderCreate sample.projection
          (onUpdate sample.projection
            (onOrderCreate sample.projection sample.emptyStore sample.createdEvent).2
            sample.updatedEvent).2
          sample.createdEvent).2.find "1" = some d1 →
        d.sameAt .ShopItems d1 ∧ d.sameAt .TotalPrice d1) := by
  refine ⟨by decide, by decide, ?_⟩
  intro h
  have h1 : (some [7, 8] : Option (List Nat)) = some [9] := (h _ _ rfl rfl).1
  exact absurd h1 (by decide)

end elastic_projection

namespace elastic_projection

open es events models repository

variable {ι ρ P : Type} [DecidableEq ι] [DecidableEq ρ] [Inhabited ρ] [DecidableEq P] [Inhabited P]

/-- C8: applying a projection handler to the same event twice in a row gives
what applying it once gives, for each of the seven handlers and every store.
For `OrderCreated` delivered twice to a reachable store: if the order had no
document there is now exactly one, it is the document built from the event,
created, with the total price of the event's items; if the order had a
document no document is added and the merged document is created. -/
theorem projection_idempotent (o : elasticProjection ι ρ P) (r : ElasticRepository ι ρ P)
    (evt : Event) :
    (onOrderCreate o (onOrderCreate o r evt).2 evt = onOrderCreate o r evt ∧
      onOrderPaid o (onOrderPaid o r evt).2 evt = onOrderPaid o r evt ∧
      onSubmit o (onSubmit o r evt).2 evt = onSubmit o r evt ∧
      onUpdate o (onUpdate o r evt).2 evt = onUpdate o r evt ∧
      onCancel o (onCancel o r evt).2 evt = onCancel o r evt ∧
      onDelivered o (onDelivered o r evt).2 evt = onDelivered o r evt ∧
      onOrderDeliveryAddressUpdated o (onOrderDeliveryAddressUpdated o r evt).2 evt =
        onOrderDeliveryAddressUpdated o r evt) ∧
    (∀ eventData, r.available = true →
      evt.GetJsonData o.json.unmarshalCreated = .ok eventData →
      r.find (o.GetOrderAggregateID evt.AggregateID) = none →
      ∃ doc, (onOrderCreate o (onOrderCreate o r evt).2 evt).2.find
          (o.GetOrderAggregateID evt.AggregateID) = some doc ∧
        (onOrderCreate o (onOrderCreate o r evt).2 evt).2.count
          (o.GetOrderAggregateID evt.AggregateID) = 1 ∧
        doc.OrderID = o.GetOrderAggregateID evt.AggregateID ∧
        doc.Created = true ∧
        doc.ShopItems = eventData.ShopItems ∧
        doc.AccountEmail = eventData.AccountEmail ∧
        doc.TotalPrice = o.GetShopItemsTotalPrice eventData.ShopItems) ∧
    (∀ eventData old, r.available = true →
      evt.GetJsonData o.json.unmarshalCreated = .ok eventData →
      r.find (o.GetOrderAggregateID evt.AggregateID) = some old →
      ∃ doc, (onOrderCreate o (onOrderCreate o r evt).2 evt).2.find
          (o.GetOrderAggregateID evt.AggregateID) = some doc ∧
        (onOrderCreate o (onOrderCreate o r evt).2 evt).2.count
          (o.GetOrderAggregateID evt.AggregateID) =
            r.count (o.GetOrderAggregateID evt.AggregateID) ∧
        doc.Created = true ∧
        doc.TotalPrice = mergeField old.TotalPrice
          (o.GetShopItemsTotalPrice eventData.ShopItems)) := by
  refine ⟨⟨?_, ?_, ?_, ?_, ?_, ?_, ?_⟩, ?_, ?_⟩
  · unfold onOrderCreate
    cases hd : evt.GetJsonData o.json.unmarshalCreated with
    | error e => simp
    | ok eventData => exact upsert_idem r _ _
  · unfold onOrderPaid
    cases hd : evt.GetJsonData o.json.unmarshalPayment with
    | error e => simp
    | ok payment => exact upsert_idem r _ _
  · unfold onSubmit
    exact upsert_idem r _ _
  · unfold onUpdate
    cases hd : evt.GetJsonData o.json.unmarshalUpdated with
    | error e => simp
    | ok eventData => exact upsert_idem r _ _
  · unfold onCancel
    cases hd : evt.GetJsonData o.json.unmarshalCanceled with
    | error e => simp
    | ok eventData => exact upsert_idem r _ _
  · unfold onDelivered
    cases hd : evt.GetJsonData o.json.unmarshalDelivered with
    | error e => simp
    | ok eventData => exact upsert_idem r _ _
  · unfold onOrderDeliveryAddressUpdated
    cases hd : evt.GetJsonData o.json.unmarshalAddress with
    | error e => simp
    | ok eventData => exact upsert_idem r _ _
  · intro eventData ha hd hf
    have h2 : onOrderCreate o (onOrderCreate o r evt).2 evt = onOrderCreate o r evt := by
      unfold onOrderCreate
      simp only [hd]
      exact upsert_idem r _ _
    rw [h2]
    unfold onOrderCreate
    simp only [hd, ElasticRepository.IndexOrder]
    obtain ⟨_, h3, h4⟩ := upsert_absent r (o.GetOrderAggregateID evt.AggregateID)
      { (OrderProjection.zero : OrderProjection ι ρ P) with
        OrderID := o.GetOrderAggregateID evt.AggregateID
        ShopItems := eventData.ShopItems
        Created := true
        AccountEmail := eventData.AccountEmail
        TotalPrice := o.GetShopItemsTotalPrice eventData.ShopItems } ha hf
    exact ⟨_, h3, h4, rfl, rfl, rfl, rfl, rfl⟩
  · intro eventData old ha hd hf
    have h2 : onOrderCreate o (onOrderCreate o r evt).2 evt = onOrderCreate o r evt := by
      unfold onOrderCreate
      simp only [hd]
      exact upsert_idem r _ _
    rw [h2]
    unfold onOrderCreate
    simp only [hd, ElasticRepository.IndexOrder]
    obtain ⟨_, h3, h4⟩ := upsert_present r (o.GetOrderAggregateID evt.AggregateID)
      { (OrderProjection.zero : OrderProjection ι ρ P) with
        OrderID := o.GetOrderAggregateID evt.AggregateID
        ShopItems := eventData.ShopItems
        Created := true
        AccountEmail := eventData.AccountEmail
        TotalPrice := o.GetShopItemsTotalPrice eventData.ShopItems } old ha hf
    exact ⟨_, h3, h4, rfl, rfl⟩

/-- An `OrderCreated` event delivered twice to the empty store: one document
for order "1", created, with total price 15 for the items 7 and 8. -/
theorem projection_idempotent_witness :
    ∃ doc, (onOrderCreate sample.projection
        (onOrderCreate sample.projection sample.emptyStore
          sample.createdEvent).2 sample.createdEvent).2.find "1" = some doc ∧
      (onOrderCreate sample.projection
        (onOrderCreate sample.projection sample.emptyStore
          sample.createdEvent).2 sample.createdEvent).2.count "1" = 1 ∧
      doc.OrderID = "1" ∧ doc.Created = true ∧ doc.ShopItems = some [7, 8] ∧
      doc.AccountEmail = "" ∧ doc.TotalPrice = 15 :=
  (projection_idempotent sample.projection sample.emptyStore
    sample.createdEvent).2.1 ⟨some [7, 8], ""⟩ rfl rfl rfl

/-- C10 (the code departs from the claim): whenever `onOrderPaidCommand`
succeeds, the one event it appends is an `OrderPaid` event with an empty
payload, and the projection handler `onOrderPaid` rejects that event at
deserialization, for every decoder and every store, leaving the store as it
was: the read-model update with paid set is never reached. -/
theorem paid_event_rejected_by_projection {ι ρ P : Type} [DecidableEq ι] [DecidableEq ρ]
    [Inhabited ρ] [DecidableEq P] [Inhabited P] (j : Json ι P) (ctx : Context)
    (a : aggregate.OrderAggregate ι P) (cmd : aggregate.OrderPaidCommand)
    (o : elasticProjection ι ρ P) (r : ElasticRepository ι ρ P)
    (h : (aggregate.onOrderPaidCommand j ctx a cmd).1 = none) :
    ∃ evt, (aggregate.onOrderPaidCommand j ctx a cmd).2.UncommittedEvents =
        a.UncommittedEvents ++ [evt] ∧
      evt.EventType = .OrderPaid ∧ evt.Data = [] ∧
      onOrderPaid o r evt = (some (.Wrap "unexpected end of JSON input" "GetJsonData"), r) := by
  rcases aggregate.onOrderPaidCommand_cases j ctx a cmd with ⟨e, he⟩ | ⟨evt, ht, hdata, _, _, he⟩
  · rw [he] at h; cases h
  · refine ⟨evt, ?_, ht, hdata, ?_⟩
    · rw [he]
      simp [aggregate.OrderAggregate.Apply, aggregate.When, ht]
    · simp [onOrderPaid, Event.GetJsonData, hdata]

/-- The pay command on a created order of the example, and the projection of
the event it emits into the example store: the projection returns the
deserialization error. -/
theorem paid_event_rejected_by_projection_witness :
    ∃ evt, (aggregate.onOrderPaidCommand sample.json sample.ctx
        (sample.orderInState true false false false) ⟨⟨"1"⟩⟩).2.UncommittedEvents =
        (sample.orderInState true false false false).UncommittedEvents ++ [evt] ∧
      evt.EventType = .OrderPaid ∧ evt.Data = [] ∧
      onOrderPaid sample.projection sample.settledStore evt =
        (some (.Wrap "unexpected end of JSON input" "GetJsonData"), sample.settledStore) :=
  paid_event_rejected_by_projection sample.json sample.ctx
    (sample.orderInState true false false false) ⟨⟨"1"⟩⟩ sample.projection
    sample.settledStore (by decide)

end elastic_projection

/-! ## The event store -/

namespace store

open es esdb

theorem foldl_ToEventData (events : List Event) (init : List EventData) :
    events.foldl (fun acc event => acc ++ [ToEventData event]) init =
      init ++ events.map ToEventData := by
  induction events generalizing init with
  | nil => simp
  | cons e rest ih => simp [List.foldl_cons, ih]

/-- C6 (as the code has it): `SaveEvents` passes no expected version, so the
append is never rejected for a version mismatch.  Against a reachable store it
succeeds whatever the head of the stream is, appending exactly the batch, in
order, after the events already there and leaving every other stream alone;
against an unreachable store it fails and changes nothing. -/
theorem SaveEvents_appends_at_any_head (db : Client) (streamID : String) (events : List Event) :
    (SaveEvents db streamID events).1 ≠ some .WrongExpectedVersion ∧
    (db.available = true →
      (SaveEvents db streamID events).1 = none ∧
      (SaveEvents db streamID events).2.streams streamID =
        db.streams streamID ++ events.map ToEventData ∧
      ∀ s, s ≠ streamID → (SaveEvents db streamID events).2.streams s = db.streams s) ∧
    (db.available = false → SaveEvents db streamID events = (some .Unavailable, db)) := by
  unfold SaveEvents Client.AppendToStream
  rw [foldl_ToEventData]
  cases ha : db.available
  · simp [ExpectedRevision.matches]
  · simp only [Bool.not_true, Bool.false_eq_true, if_false, Option.getD_none,
      ExpectedRevision.matches, List.nil_append, true_implies, if_true, ne_eq, not_false_eq_true,
      true_and, false_implies, and_true, reduceCtorEq]
    intro s hs
    simp [hs]

/-- An append of two events to the five-event stream of the example store
succeeds and puts them at the end. -/
theorem SaveEvents_appends_at_any_head_witness :
    (SaveEvents sample.db5 "order-1"
        [sample.staleEvent, sample.staleEvent]).1 = none ∧
    (SaveEvents sample.db5 "order-1"
        [sample.staleEvent, sample.staleEvent]).2.streams "order-1" =
      sample.db5.streams "order-1" ++
        [sample.staleEvent, sample.staleEvent].map ToEventData ∧
    ∀ s, s ≠ "order-1" →
      (SaveEvents sample.db5 "order-1"
        [sample.staleEvent, sample.staleEvent]).2.streams s =
        sample.db5.streams s :=
  (SaveEvents_appends_at_any_head sample.db5 "order-1"
    [sample.staleEvent, sample.staleEvent]).2.1 rfl

/-- C6 fails as stated: a writer that last saw stream "order-1" at version 3
saves an event carrying version 4 while the stream is at version 5.  The
client would refuse the append if asked to expect the writer's revision, but
`SaveEvents` does not ask: the save succeeds and the stream grows to six
events. -/
theorem SaveEvents_no_concurrency_check :
    (sample.db5.streams "order-1").length = 5 ∧
    sample.staleEvent.Version = 4 ∧
    (sample.db5.AppendToStream "order-1" { ExpectedRevision := some (.Revision 2) }
        [ToEventData sample.staleEvent]).1 = .error .WrongExpectedVersion ∧
    (SaveEvents sample.db5 "order-1" [sample.staleEvent]).1 = none ∧
    ((SaveEvents sample.db5 "order-1" [sample.staleEvent]).2.streams
        "order-1").length = 6 := by
  refine ⟨by decide, by decide, rfl, by decide, by decide⟩

end store
